import Mathlib

/-!
Verification of the phone-csv-processor country-rule validation,
decomposition, generation and grouping engine, shallowly embedded from the
JavaScript sources. Strings are modelled as lists of characters, JS Sets are
modelled as lists queried by membership, and Math.random is modelled as an
explicit stream of natural numbers threaded through the generator.
-/

/-- Character-list model of a JavaScript string. -/
abbrev Str := List Char

/-- Converts a Lean string literal to the character-list model. -/
def str (s : String) : Str := s.data

/-- Model of raw.replace of all non-digit characters by nothing: keeps only
the characters 0-9. The JS guard returning the empty string on an empty input
is subsumed by filtering. -/
def toE164Digits (raw : Str) : Str := raw.filter Char.isDigit

/-- Model of String.prototype.trim for the ASCII inputs of this system. -/
def trimStr (s : Str) : Str :=
  ((s.dropWhile Char.isWhitespace).reverse.dropWhile Char.isWhitespace).reverse

/-- Per-country numbering rule, from src/config/countryRules.js. Only the
fields read by the embedded functions are kept: code, minE164Length,
maxE164Length and areaCodes. -/
structure CountryRule where
  code : Str
  minE164Length : Option Nat
  maxE164Length : Option Nat
  areaCodes : Option (List Str)
deriving DecidableEq

/-- Argentina rule from countryRules.js. -/
def argentinaRule : CountryRule :=
  { code := str r"54", minE164Length := some 13, maxE164Length := some 15,
    areaCodes := some [ str r"11", str r"221", str r"223", str r"261", str r"299",
      str r"341", str r"351", str r"379", str r"381", str r"385", str r"387"] }

/-- Bolivia rule from countryRules.js. -/
def boliviaRule : CountryRule :=
  { code := str r"591", minE164Length := some 11, maxE164Length := some 11,
    areaCodes := none }

/-- Brasil rule from countryRules.js. -/
def brasilRule : CountryRule :=
  { code := str r"55", minE164Length := some 12, maxE164Length := some 13,
    areaCodes := none }

/-- Chile rule from countryRules.js. -/
def chileRule : CountryRule :=
  { code := str r"56", minE164Length := some 11, maxE164Length := some 11,
    areaCodes := none }

/-- Colombia rule from countryRules.js. -/
def colombiaRule : CountryRule :=
  { code := str r"57", minE164Length := some 12, maxE164Length := some 12,
    areaCodes := none }

/-- Costa Rica rule from countryRules.js. -/
def costaRicaRule : CountryRule :=
  { code := str r"506", minE164Length := some 11, maxE164Length := some 11,
    areaCodes := none }

/-- Ecuador rule from countryRules.js. -/
def ecuadorRule : CountryRule :=
  { code := str r"593", minE164Length := some 12, maxE164Length := some 12,
    areaCodes := none }

/-- El Salvador rule from countryRules.js. -/
def elSalvadorRule : CountryRule :=
  { code := str r"503", minE164Length := some 11, maxE164Length := some 11,
    areaCodes := none }

/-- Guatemala rule from countryRules.js. -/
def guatemalaRule : CountryRule :=
  { code := str r"502", minE164Length := some 11, maxE164Length := some 11,
    areaCodes := none }

/-- Mexico area-code table from countryRules.js (461 entries). -/
def mexicoAreaCodes : List Str :=
  [
    str r"55", str r"33", str r"81", str r"222", str r"231", str r"234", str r"238", str r"241",
    str r"243", str r"244", str r"246", str r"248", str r"271", str r"294", str r"311", str r"312",
    str r"313", str r"314", str r"315", str r"316", str r"317", str r"318", str r"321", str r"322",
    str r"323", str r"324", str r"325", str r"326", str r"327", str r"328", str r"329", str r"331",
    str r"332", str r"333", str r"334", str r"341", str r"342", str r"343", str r"344", str r"345",
    str r"346", str r"347", str r"348", str r"349", str r"371", str r"372", str r"373", str r"411",
    str r"412", str r"413", str r"414", str r"415", str r"416", str r"417", str r"418", str r"421",
    str r"422", str r"423", str r"424", str r"425", str r"426", str r"427", str r"428", str r"429",
    str r"431", str r"432", str r"433", str r"434", str r"435", str r"436", str r"437", str r"438",
    str r"441", str r"442", str r"443", str r"444", str r"445", str r"446", str r"447", str r"448",
    str r"449", str r"451", str r"452", str r"453", str r"454", str r"455", str r"456", str r"457",
    str r"458", str r"461", str r"462", str r"463", str r"464", str r"465", str r"466", str r"467",
    str r"468", str r"469", str r"471", str r"472", str r"473", str r"474", str r"475", str r"476",
    str r"477", str r"478", str r"481", str r"482", str r"483", str r"484", str r"485", str r"486",
    str r"487", str r"488", str r"493", str r"494", str r"495", str r"496", str r"497", str r"498",
    str r"499", str r"531", str r"532", str r"533", str r"534", str r"535", str r"536", str r"537",
    str r"538", str r"539", str r"581", str r"582", str r"583", str r"584", str r"585", str r"586",
    str r"587", str r"588", str r"594", str r"595", str r"596", str r"612", str r"613", str r"614",
    str r"615", str r"616", str r"617", str r"618", str r"619", str r"621", str r"622", str r"623",
    str r"624", str r"625", str r"626", str r"627", str r"628", str r"629", str r"631", str r"632",
    str r"633", str r"634", str r"635", str r"636", str r"637", str r"638", str r"639", str r"641",
    str r"642", str r"643", str r"644", str r"645", str r"646", str r"647", str r"648", str r"649",
    str r"651", str r"652", str r"653", str r"654", str r"655", str r"656", str r"657", str r"658",
    str r"659", str r"664", str r"665", str r"666", str r"667", str r"668", str r"669", str r"671",
    str r"672", str r"673", str r"674", str r"675", str r"676", str r"677", str r"678", str r"679",
    str r"681", str r"682", str r"683", str r"684", str r"685", str r"686", str r"687", str r"688",
    str r"689", str r"691", str r"692", str r"693", str r"694", str r"695", str r"696", str r"697",
    str r"698", str r"699", str r"711", str r"712", str r"713", str r"714", str r"715", str r"716",
    str r"717", str r"718", str r"719", str r"721", str r"722", str r"723", str r"724", str r"725",
    str r"726", str r"727", str r"728", str r"729", str r"731", str r"732", str r"733", str r"734",
    str r"735", str r"736", str r"737", str r"738", str r"739", str r"741", str r"742", str r"743",
    str r"744", str r"745", str r"746", str r"747", str r"748", str r"749", str r"751", str r"752",
    str r"753", str r"754", str r"755", str r"756", str r"757", str r"758", str r"759", str r"761",
    str r"762", str r"763", str r"764", str r"765", str r"766", str r"767", str r"768", str r"769",
    str r"771", str r"772", str r"773", str r"774", str r"775", str r"776", str r"777", str r"778",
    str r"779", str r"781", str r"782", str r"783", str r"784", str r"785", str r"786", str r"787",
    str r"788", str r"789", str r"791", str r"792", str r"793", str r"794", str r"795", str r"796",
    str r"797", str r"798", str r"799", str r"811", str r"812", str r"813", str r"814", str r"815",
    str r"816", str r"817", str r"818", str r"819", str r"821", str r"822", str r"823", str r"824",
    str r"825", str r"826", str r"827", str r"828", str r"829", str r"831", str r"832", str r"833",
    str r"834", str r"835", str r"836", str r"837", str r"838", str r"839", str r"841", str r"842",
    str r"843", str r"844", str r"845", str r"846", str r"847", str r"848", str r"849", str r"851",
    str r"852", str r"853", str r"854", str r"855", str r"856", str r"857", str r"858", str r"859",
    str r"861", str r"862", str r"863", str r"864", str r"865", str r"866", str r"867", str r"868",
    str r"869", str r"871", str r"872", str r"873", str r"874", str r"875", str r"876", str r"877",
    str r"878", str r"879", str r"881", str r"882", str r"883", str r"884", str r"885", str r"886",
    str r"887", str r"888", str r"889", str r"891", str r"892", str r"893", str r"894", str r"895",
    str r"896", str r"897", str r"898", str r"899", str r"911", str r"912", str r"913", str r"914",
    str r"915", str r"916", str r"917", str r"918", str r"919", str r"921", str r"922", str r"923",
    str r"924", str r"925", str r"926", str r"927", str r"928", str r"929", str r"931", str r"932",
    str r"933", str r"934", str r"935", str r"936", str r"937", str r"938", str r"939", str r"941",
    str r"942", str r"943", str r"944", str r"945", str r"946", str r"947", str r"948", str r"949",
    str r"951", str r"952", str r"953", str r"954", str r"955", str r"956", str r"957", str r"958",
    str r"959", str r"961", str r"962", str r"963", str r"964", str r"965", str r"966", str r"967",
    str r"968", str r"969", str r"971", str r"972", str r"973", str r"974", str r"975", str r"976",
    str r"977", str r"978", str r"979", str r"981", str r"982", str r"983", str r"984", str r"985",
    str r"986", str r"987", str r"988", str r"989", str r"991", str r"992", str r"993", str r"994",
    str r"995", str r"996", str r"997", str r"998", str r"999"]

/-- Mexico rule from countryRules.js, with its full area-code table. -/
def mexicoRule : CountryRule :=
  { code := str r"52", minE164Length := some 12, maxE164Length := some 13,
    areaCodes := some mexicoAreaCodes }

/-- Panama rule from countryRules.js. -/
def panamaRule : CountryRule :=
  { code := str r"507", minE164Length := some 11, maxE164Length := some 11,
    areaCodes := none }

/-- Paraguay rule from countryRules.js. -/
def paraguayRule : CountryRule :=
  { code := str r"595", minE164Length := some 12, maxE164Length := some 12,
    areaCodes := none }

/-- Peru rule from countryRules.js. -/
def peruRule : CountryRule :=
  { code := str r"51", minE164Length := some 11, maxE164Length := some 11,
    areaCodes := none }

/-- Dominican Republic rule from countryRules.js. -/
def dominicanaRule : CountryRule :=
  { code := str r"1", minE164Length := some 11, maxE164Length := some 11,
    areaCodes := none }

/-- Uruguay rule from countryRules.js. -/
def uruguayRule : CountryRule :=
  { code := str r"598", minE164Length := some 11, maxE164Length := some 11,
    areaCodes := none }

/-- USA rule from countryRules.js. -/
def usaRule : CountryRule :=
  { code := str r"1", minE164Length := some 11, maxE164Length := some 11,
    areaCodes := none }

/-- Canada rule from countryRules.js. -/
def canadaRule : CountryRule :=
  { code := str r"1", minE164Length := some 11, maxE164Length := some 11,
    areaCodes := none }

/-- The COUNTRY_RULES object of countryRules.js as an association list in
object insertion order. -/
def COUNTRY_RULES : List (Str × CountryRule) :=
  [ (str r"Argentina", argentinaRule), (str r"Bolivia", boliviaRule),
    (str r"Brasil", brasilRule), (str r"Chile", chileRule),
    (str r"Colombia", colombiaRule), (str r"Costa Rica", costaRicaRule),
    (str r"Ecuador", ecuadorRule), (str r"El Salvador", elSalvadorRule),
    (str r"Guatemala", guatemalaRule), (str r"Mexico", mexicoRule),
    (str r"Panamá", panamaRule), (str r"Paraguay", paraguayRule),
    (str r"Peru", peruRule), (str r"República Dominicana", dominicanaRule),
    (str r"Uruguay", uruguayRule), (str r"USA", usaRule),
    (str r"Canada", canadaRule)]

/-- The COUNTRY_ALIASES object of countryRules.js. -/
def COUNTRY_ALIASES : List (Str × Str) :=
  [ (str r"Argentina", str r"Argentina"), (str r"Bolivia", str r"Bolivia"),
    (str r"Brasil", str r"Brasil"), (str r"Brazil", str r"Brasil"),
    (str r"Chile", str r"Chile"), (str r"Colombia", str r"Colombia"),
    (str r"Costa Rica", str r"Costa Rica"), (str r"Ecuador", str r"Ecuador"),
    (str r"El Salvador", str r"El Salvador"), (str r"Guatemala", str r"Guatemala"),
    (str r"Mexico", str r"Mexico"), (str r"México", str r"Mexico"),
    (str r"Panamá", str r"Panamá"), (str r"Panama", str r"Panamá"),
    (str r"Paraguay", str r"Paraguay"), (str r"Peru", str r"Peru"),
    (str r"Perú", str r"Peru"),
    (str r"República Dominicana", str r"República Dominicana"),
    (str r"Uruguay", str r"Uruguay"), (str r"USA", str r"USA"),
    (str r"Estados Unidos", str r"USA"), (str r"United States", str r"USA"),
    (str r"USA / Canadá", str r"USA"), (str r"Canada", str r"Canada"),
    (str r"Canadá", str r"Canada"), (str r"no_detectado", str r"no_detectado")]

/-- The CODE_TO_COUNTRY object of countryRules.js. Entries whose JS value is a
single string are modelled as singleton lists, matching getCountryByCode which
wraps them. Note the absence of code 34. -/
def CODE_TO_COUNTRY : List (Str × List Str) :=
  [ (str r"54", [str r"Argentina"]), (str r"591", [str r"Bolivia"]),
    (str r"55", [str r"Brasil"]), (str r"56", [str r"Chile"]),
    (str r"57", [str r"Colombia"]), (str r"506", [str r"Costa Rica"]),
    (str r"593", [str r"Ecuador"]), (str r"503", [str r"El Salvador"]),
    (str r"502", [str r"Guatemala"]), (str r"52", [str r"Mexico"]),
    (str r"507", [str r"Panamá"]), (str r"595", [str r"Paraguay"]),
    (str r"51", [str r"Peru"]), (str r"598", [str r"Uruguay"]),
    (str r"1", [str r"USA", str r"Canada", str r"República Dominicana"])]

/-- Model of the expression COUNTRY_ALIASES[pais] or pais. -/
def aliasLookup (pais : Str) : Str :=
  ((COUNTRY_ALIASES.find? (fun q => q.1 == pais)).map (fun q => q.2)).getD pais

/-- Model of the expression COUNTRY_RULES[key] or null. -/
def rulesLookup (key : Str) : Option CountryRule :=
  (COUNTRY_RULES.find? (fun q => q.1 == key)).map (fun q => q.2)

/-- Model of getCountryRule of countryRules.js. -/
def getCountryRule (countryName : Str) : Option CountryRule :=
  rulesLookup (aliasLookup countryName)

/-- Model of getCountryByCode of countryRules.js. -/
def getCountryByCode (dialCode : Str) : Option (List Str) :=
  (CODE_TO_COUNTRY.find? (fun q => q.1 == dialCode)).map (fun q => q.2)

/-- The fixed allow-list of two-digit E.164 dial codes used by splitE164 in
src/validator/validator.js. -/
def twoCodes : List Str :=
  [ str r"20", str r"27", str r"30", str r"31", str r"32", str r"33", str r"34",
    str r"36", str r"39", str r"40", str r"41", str r"43", str r"44", str r"45",
    str r"46", str r"47", str r"48", str r"49", str r"51", str r"52", str r"53",
    str r"54", str r"55", str r"56", str r"57", str r"58", str r"60", str r"61",
    str r"62", str r"63", str r"64", str r"65", str r"66", str r"81", str r"82",
    str r"86", str r"90", str r"91", str r"92", str r"93", str r"94", str r"95",
    str r"98"]

/-- Model of splitE164 of src/validator/validator.js: resolves the dial code
of an E.164 digit string. The JS final guard returning null on an empty dial
code is exactly the last else branch, since both ten-or-more branches always
set a nonempty dial code. -/
def splitE164 (e164 : Str) : Option (Str × Str) :=
  let digits := toE164Digits e164
  if digits = [] then none
  else if (['1'] : Str).isPrefixOf digits ∧ 11 ≤ digits.length then
    some (['1'], digits.drop 1)
  else if 10 ≤ digits.length then
    let two := digits.take 2
    if two ∈ twoCodes then some (two, digits.drop 2)
    else some (digits.take 3, digits.drop 3)
  else none

/-- Rejection causes of validatePhoneForCountry, in the order the source
tests them. Each constructor stands for one of the JS error message strings. -/
inductive ErrKind where
  | emptyPhone
  | notPlus
  | badChars
  | tooShort
  | noDialCode
  | codeUnknown
  | countryMismatch
  | badLength
deriving DecidableEq

/-- Result of validatePhoneForCountry: either a valid outcome carrying the
clean E.164 string, or a rejection cause. -/
inductive VOutcome where
  | valid (e164 : Str)
  | invalid (error : ErrKind)
deriving DecidableEq

/-- Model of validatePhoneForCountry of src/validator/validator.js (the
country-rules revision). The JS test for two plus signs via a regex is
modelled as counting plus characters, equivalent on every input because any
character standing between two pluses other than a digit already triggers the
non-digit non-plus rejection, and a digit is matched by the dot. -/
def validatePhoneForCountry (phone pais : Str) : VOutcome :=
  if phone = [] then .invalid .emptyPhone
  else
    let trimmed := trimStr phone
    if ¬ (['+'] : Str).isPrefixOf trimmed then .invalid .notPlus
    else if trimmed.any (fun c => ¬ (c.isDigit ∨ c = '+')) ∨ 2 ≤ trimmed.count '+' then
      .invalid .badChars
    else
      let digits := toE164Digits trimmed
      if digits.length < 8 then .invalid .tooShort
      else
        match splitE164 ('+' :: digits) with
        | none => .invalid .noDialCode
        | some (dialCode, _national) =>
          match getCountryByCode dialCode with
          | none => .invalid .codeUnknown
          | some allowed =>
            let countryKey := aliasLookup pais
            if ¬ allowed.any (fun c => aliasLookup c = countryKey ∨ c = countryKey) then
              .invalid .countryMismatch
            else
              match (getCountryRule pais).orElse (fun _ => getCountryRule countryKey) with
              | some rule =>
                if digits.length < rule.minE164Length.getD 8 ∨
                    rule.maxE164Length.getD 15 < digits.length then
                  .invalid .badLength
                else .valid ('+' :: digits)
              | none =>
                if digits.length < 8 ∨ 15 < digits.length then .invalid .badLength
                else .valid ('+' :: digits)

/-- Input row consumed by validateRecords. Only the fields the validator
reads are kept, plus the name field so that two rows with the same phone stay
distinguishable. -/
structure RawRecord where
  phone : Str
  pais : Str
  name : Str
deriving DecidableEq

/-- Loop of validateRecords of src/validator/validator.js (country-rules
revision): accumulates valid rows, skipping any row whose e164 was already
seen, and accumulates rejected rows with their cause. The JS try catch never
fires because the embedded validator is total. -/
def validateRecordsLoop :
    List RawRecord → List Str → List (RawRecord × Str) → List (RawRecord × ErrKind) →
    List (RawRecord × Str) × List (RawRecord × ErrKind)
  | [], _, out, errs => (out, errs)
  | r :: rest, seen, out, errs =>
    match validatePhoneForCountry r.phone r.pais with
    | .invalid e => validateRecordsLoop rest seen out (errs ++ [(r, e)])
    | .valid e164 =>
      if e164 ∈ seen then validateRecordsLoop rest seen out errs
      else validateRecordsLoop rest (seen ++ [e164]) (out ++ [(r, e164)]) errs

/-- Model of validateRecords of src/validator/validator.js (country-rules
revision), which deduplicates by e164. -/
def validateRecords (records : List RawRecord) :
    List (RawRecord × Str) × List (RawRecord × ErrKind) :=
  validateRecordsLoop records [] [] []

/-- Loop of the other validateRecords revision in the corpus (the
libphonenumber based validator file), which keeps duplicate e164 rows. Its
per-row validator delegates to the external libphonenumber-js library, so the
row validator is taken as a parameter v; the loop structure is the one of the
source. -/
def validateRecordsKeepDupLoop (v : Str → Str → VOutcome) :
    List RawRecord → List (RawRecord × Str) → List (RawRecord × ErrKind) →
    List (RawRecord × Str) × List (RawRecord × ErrKind)
  | [], out, errs => (out, errs)
  | r :: rest, out, errs =>
    match v r.phone r.pais with
    | .invalid e => validateRecordsKeepDupLoop v rest out (errs ++ [(r, e)])
    | .valid e164 => validateRecordsKeepDupLoop v rest (out ++ [(r, e164)]) errs

/-- Model of the duplicate-keeping validateRecords revision. -/
def validateRecordsKeepDup (v : Str → Str → VOutcome) (records : List RawRecord) :
    List (RawRecord × Str) × List (RawRecord × ErrKind) :=
  validateRecordsKeepDupLoop v records [] []

/-- Decomposition result of src/normalizer/normalizer.js. -/
structure NormalizedPhone where
  country_code : Str
  area_code : Str
  local_number : Str
  full_e164 : Str
deriving DecidableEq

/-- Model of the Argentine area-code test, the JS regex matching a digit 2-9
followed by one or more digits. -/
def argAreaOk (a : Str) : Bool :=
  match a with
  | [] => false
  | c :: rest => ('2' ≤ c ∧ c ≤ '9') ∧ rest ≠ [] ∧ rest.all Char.isDigit

/-- Area and local split applied by normalizeArgentina once the mobile nine
has been handled: the fixed Buenos Aires case, then candidate lengths 4, 3, 2
in priority order, else no area code. Taken from normalizer.js. -/
def argentinaSplit (dialCode rest full : Str) : NormalizedPhone :=
  if (['1', '1'] : Str).isPrefixOf rest ∧ rest.length = 10 then
    ⟨dialCode, ['1', '1'], rest.drop 2, full⟩
  else if rest.length = 10 then
    if 4 < rest.length ∧ argAreaOk (rest.take 4) then
      ⟨dialCode, rest.take 4, rest.drop 4, full⟩
    else if 3 < rest.length ∧ argAreaOk (rest.take 3) then
      ⟨dialCode, rest.take 3, rest.drop 3, full⟩
    else if 2 < rest.length ∧ argAreaOk (rest.take 2) then
      ⟨dialCode, rest.take 2, rest.drop 2, full⟩
    else ⟨dialCode, [], rest, full⟩
  else ⟨dialCode, [], rest, full⟩

/-- Model of normalizeArgentina of normalizer.js: an eleven-digit national
number starting with 9 has that mobile indicator removed before the area
split; a ten-digit national number is split as is; anything else degrades. -/
def normalizeArgentina (dialCode national full : Str) : NormalizedPhone :=
  if national.length = 11 ∧ (['9'] : Str).isPrefixOf national then
    argentinaSplit dialCode (national.drop 1) full
  else if national.length = 10 then
    argentinaSplit dialCode national full
  else ⟨dialCode, [], national, full⟩

/-- Model of normalizeMexico of normalizer.js: longest table match of 3 then
2 digits, else a default two-digit area code. -/
def normalizeMexico (dialCode national full : Str) (rule : CountryRule) : NormalizedPhone :=
  if national.length = 10 then
    if (rule.areaCodes.getD []).contains (national.take 3) then
      ⟨dialCode, national.take 3, national.drop 3, full⟩
    else if (rule.areaCodes.getD []).contains (national.take 2) then
      ⟨dialCode, national.take 2, national.drop 2, full⟩
    else ⟨dialCode, national.take 2, national.drop 2, full⟩
  else ⟨dialCode, [], national, full⟩

/-- Model of normalizeSpain of normalizer.js. -/
def normalizeSpain (dialCode national full : Str) : NormalizedPhone :=
  ⟨dialCode, [], national, full⟩

/-- Model of normalizeColombia of normalizer.js. -/
def normalizeColombia (dialCode national full : Str) : NormalizedPhone :=
  if national.length = 10 ∧ national.take 1 = ['3'] then
    ⟨dialCode, national.take 3, national.drop 3, full⟩
  else ⟨dialCode, [], national, full⟩

/-- Model of normalizeChile of normalizer.js. -/
def normalizeChile (dialCode national full : Str) : NormalizedPhone :=
  if national.length = 9 ∧ (['9'] : Str).isPrefixOf national then
    ⟨dialCode, ['9'], national.drop 1, full⟩
  else if national.take 1 = ['9'] then ⟨dialCode, ['9'], national.drop 1, full⟩
  else ⟨dialCode, [], national, full⟩

/-- Model of normalizePeru of normalizer.js. -/
def normalizePeru (dialCode national full : Str) : NormalizedPhone :=
  if national.length = 9 ∧ (['9'] : Str).isPrefixOf national then
    ⟨dialCode, ['9'], national.drop 1, full⟩
  else if national.take 1 = ['9'] then ⟨dialCode, ['9'], national.drop 1, full⟩
  else ⟨dialCode, [], national, full⟩

/-- Model of normalizeNANP of normalizer.js. -/
def normalizeNANP (dialCode national full : Str) : NormalizedPhone :=
  if national.length = 10 then
    ⟨dialCode, national.take 3, national.drop 3, full⟩
  else ⟨dialCode, [], national, full⟩

/-- Model of normalize of src/normalizer/normalizer.js (named normalizePhone
here because Mathlib already uses the name normalize): adds a plus when
missing, resolves the dial code, selects the per-country split by the rule
code, and degrades to an empty area code when no rule or split applies. -/
def normalizePhone (e164 pais : Str) : NormalizedPhone :=
  let full := if (['+'] : Str).isPrefixOf e164 then e164 else '+' :: e164
  match splitE164 full with
  | none => ⟨[], [], full.dropWhile (fun c => c = '+'), full⟩
  | some (dialCode, national) =>
    let countryKey := aliasLookup pais
    match (getCountryRule pais).orElse (fun _ => getCountryRule countryKey) with
    | none => ⟨dialCode, [], national, full⟩
    | some rule =>
      if rule.code = str r"54" then normalizeArgentina dialCode national full
      else if rule.code = str r"52" then normalizeMexico dialCode national full rule
      else if rule.code = str r"34" then normalizeSpain dialCode national full
      else if rule.code = str r"57" then normalizeColombia dialCode national full
      else if rule.code = str r"56" then normalizeChile dialCode national full
      else if rule.code = str r"51" then normalizePeru dialCode national full
      else if rule.code = str r"1" then normalizeNANP dialCode national full
      else ⟨dialCode, [], national, full⟩

/-- Stream of random draws standing for the successive results of
Math.random. An exhausted stream keeps yielding zero. -/
abbrev RStream := List Nat

/-- Takes one draw from the stream. -/
def nextNat (g : RStream) : Nat × RStream :=
  match g with
  | [] => (0, [])
  | n :: rest => (n, rest)

/-- Model of randomInt of src/generator/numberGenerator.js: a uniform draw on
the inclusive range, realised on the draw stream by a remainder. Every value
of the range is reachable and no value outside it is. -/
def randomInt (lo hi : Nat) (g : RStream) : Nat × RStream :=
  let (n, g1) := nextNat g
  (lo + n % (hi - lo + 1), g1)

/-- Digit character of a draw; call sites only pass 0 to 9, the remainder
makes the function total. -/
def digitToChar (d : Nat) : Char := Char.ofNat (48 + d % 10)

/-- Tail of randomDigits: positions after the first, where JS applies no
leading-zero redraw. -/
def randomDigitsTail : Nat → RStream → Str × RStream
  | 0, g => ([], g)
  | n + 1, g =>
    let (d, g1) := randomInt 0 9 g
    let (rest, g2) := randomDigitsTail n g1
    (digitToChar d :: rest, g2)

/-- Model of randomDigits of numberGenerator.js: n random digits, the first
redrawn from 1 to 9 when it would be zero and noLeadingZero is set. -/
def randomDigits (n : Nat) (noLeadingZero : Bool) (g : RStream) : Str × RStream :=
  match n with
  | 0 => ([], g)
  | m + 1 =>
    let (d, g1) := randomInt 0 9 g
    if noLeadingZero ∧ d = 0 then
      let (d2, g2) := randomInt 1 9 g1
      let (rest, g3) := randomDigitsTail m g2
      (digitToChar d2 :: rest, g3)
    else
      let (rest, g2) := randomDigitsTail m g1
      (digitToChar d :: rest, g2)

/-- Two-digit starts that the Argentine branch of the prefix extractor treats
as the head of a three-digit area code. -/
def argThreeStarts : List Str :=
  [ str r"22", str r"23", str r"24", str r"25", str r"26", str r"27",
    str r"28", str r"29", str r"34", str r"35", str r"38"]

/-- Fallback chain of the Mexico branch of the prefix extractor, entered when
no known area code is a prefix of the national number. -/
def mexicoPrefixFallback (countryCode wc : Str) (acs : List Str) : Str :=
  if 3 ≤ wc.length then
    if acs.contains (wc.take 3) then countryCode ++ wc.take 3
    else if acs.contains (wc.take 2) then countryCode ++ wc.take 2
    else if 2 ≤ wc.length then countryCode ++ wc.take 2
    else countryCode ++ wc.take 1
  else if 2 ≤ wc.length then countryCode ++ wc.take 2
  else countryCode ++ wc.take 1

/-- Model of extractPrefix of src/generator/numberGenerator.js: the
per-country uniqueness prefix of an E.164 number, at the same granularity as
the area-code decomposition. -/
def extractPrefix (e164 countryCode : Str) (rule : Option CountryRule) : Str :=
  let digits := if e164.take 1 = ['+'] then e164.drop 1 else e164
  if ¬ countryCode.isPrefixOf digits then
    countryCode ++ (digits.drop countryCode.length).take 2
  else
    let wc := digits.drop countryCode.length
    if countryCode = str r"34" then countryCode ++ wc.take 2
    else if countryCode = str r"57" then countryCode ++ wc.take 3
    else if countryCode = str r"52" then
      let acs := (rule.bind (fun r => r.areaCodes)).getD []
      match acs.find? (fun a => a.isPrefixOf wc) with
      | some a => countryCode ++ a
      | none => mexicoPrefixFallback countryCode wc acs
    else if countryCode = str r"54" then
      if (['9'] : Str).isPrefixOf wc then
        let after9 := wc.drop 1
        let acs := (rule.bind (fun r => r.areaCodes)).getD []
        match acs.find? (fun a => a.isPrefixOf after9) with
        | some a => countryCode ++ '9' :: a
        | none =>
          if 2 ≤ after9.length then
            if after9.take 2 = ['1', '1'] then countryCode ++ '9' :: after9.take 2
            else if argThreeStarts.contains (after9.take 2) then
              countryCode ++ '9' :: after9.take 3
            else countryCode ++ '9' :: after9.take 2
          else countryCode ++ '9' :: after9.take 1
      else countryCode ++ wc.take 2
    else if countryCode = str r"56" then countryCode ++ wc.take 2
    else if countryCode = str r"51" then countryCode ++ wc.take 2
    else if countryCode = str r"1" then countryCode ++ wc.take 3
    else countryCode ++ wc.take 2

/-- Uniqueness prefix stored by the loop of generateForCountry for a
candidate number under a given rule: the extractor applied at the dial code
of the rule, or at the empty code without a rule. -/
def rulePrefixOf (rule : Option CountryRule) (n : Str) : Str :=
  extractPrefix n ((rule.map (fun r => r.code)).getD []) rule

/-- Fallback area codes of generateArgentina, used when the rule lists none. -/
def argentinaDefaultAreas : List Str :=
  [ str r"11", str r"221", str r"341", str r"351", str r"261", str r"381",
    str r"223", str r"299"]

/-- Model of generateArgentina of numberGenerator.js. -/
def generateArgentina (rule : CountryRule) (g : RStream) : Str × RStream :=
  let areas := rule.areaCodes.getD argentinaDefaultAreas
  let (i, g1) := randomInt 0 (areas.length - 1) g
  let area := areas.getD i []
  let (loc, g2) := randomDigits (10 - area.length) true g1
  (str r"+549" ++ area ++ loc, g2)

/-- Fallback area codes of generateMexico, used when the rule lists none. -/
def mexicoDefaultAreas : List Str :=
  [ str r"55", str r"33", str r"81", str r"222", str r"231", str r"311",
    str r"312", str r"321", str r"322", str r"331", str r"444", str r"614",
    str r"664", str r"686"]

/-- Model of generateMexico of numberGenerator.js. -/
def generateMexico (rule : CountryRule) (g : RStream) : Str × RStream :=
  let areas := rule.areaCodes.getD mexicoDefaultAreas
  let (i, g1) := randomInt 0 (areas.length - 1) g
  let area := areas.getD i []
  let (loc, g2) := randomDigits (10 - area.length) true g1
  (str r"+52" ++ area ++ loc, g2)

/-- Model of generateSpain of numberGenerator.js. -/
def generateSpain (g : RStream) : Str × RStream :=
  let (i, g1) := randomInt 0 3 g
  let first := (['6', '7', '8', '9'] : Str).getD i '6'
  let (rest, g2) := randomDigits 8 true g1
  ('+' :: '3' :: '4' :: first :: rest, g2)

/-- Mobile block list of generateColombia of numberGenerator.js. -/
def colombiaMobileBlocks : List Str :=
  [ str r"300", str r"301", str r"310", str r"311", str r"312", str r"313",
    str r"314", str r"315", str r"316", str r"317", str r"318", str r"319",
    str r"320", str r"321", str r"322", str r"323", str r"350", str r"351"]

/-- Model of generateColombia of numberGenerator.js. -/
def generateColombia (g : RStream) : Str × RStream :=
  let (i, g1) := randomInt 0 (colombiaMobileBlocks.length - 1) g
  let pre := colombiaMobileBlocks.getD i []
  let (loc, g2) := randomDigits 7 true g1
  (str r"+57" ++ pre ++ loc, g2)

/-- Model of generateChile of numberGenerator.js. -/
def generateChile (g : RStream) : Str × RStream :=
  let (loc, g1) := randomDigits 8 true g
  (str r"+569" ++ loc, g1)

/-- Model of generatePeru of numberGenerator.js. -/
def generatePeru (g : RStream) : Str × RStream :=
  let (loc, g1) := randomDigits 8 true g
  (str r"+519" ++ loc, g1)

/-- Model of generateNANP of numberGenerator.js. The redraw of the middle
digit is kept although the first digit can never be 1. -/
def generateNANP (g : RStream) : Str × RStream :=
  let (npa1, g1) := randomInt 2 9 g
  let (npa2a, g2) := randomInt 0 9 g1
  let (npa2, g3) := if npa1 = 1 ∧ npa2a = 1 then randomInt 0 8 g2 else (npa2a, g2)
  let (npa3, g4) := randomInt 0 9 g3
  let (loc, g5) := randomDigits 7 true g4
  ('+' :: '1' :: digitToChar npa1 :: digitToChar npa2 :: digitToChar npa3 :: loc, g5)

/-- Model of generateOther of numberGenerator.js: dial code plus 8 to 12
random national digits, or null when no code is available. -/
def generateOther (rule : Option CountryRule) (g : RStream) : Option Str × RStream :=
  match rule with
  | none => (none, g)
  | some r =>
    if r.code = [] then (none, g)
    else
      let (len, g1) := randomInt 8 12 g
      let (nn, g2) := randomDigits len true g1
      (some ('+' :: (r.code ++ nn)), g2)

/-- Model of generateOne of numberGenerator.js. When the rule is missing the
source calls generateOther with the country name string in the rule slot, so
its code read yields undefined and the result is null; that branch is
therefore modelled as returning none directly. -/
def generateOne (rule : Option CountryRule) (g : RStream) : Option Str × RStream :=
  match rule with
  | none => (none, g)
  | some r =>
    if r.code = str r"54" then let (s, g1) := generateArgentina r g; (some s, g1)
    else if r.code = str r"52" then let (s, g1) := generateMexico r g; (some s, g1)
    else if r.code = str r"34" then let (s, g1) := generateSpain g; (some s, g1)
    else if r.code = str r"57" then let (s, g1) := generateColombia g; (some s, g1)
    else if r.code = str r"56" then let (s, g1) := generateChile g; (some s, g1)
    else if r.code = str r"51" then let (s, g1) := generatePeru g; (some s, g1)
    else if r.code = str r"1" then let (s, g1) := generateNANP g; (some s, g1)
    else generateOther (some r) g

/-- State of the generation loop of generateForCountry: the accumulated
output, the local copies of the two uniqueness sets, the draw stream, and the
number of attempts consumed. -/
structure GenSt where
  out : List Str
  used : List Str
  usedP : List Str
  g : RStream
  tries : Nat
deriving DecidableEq

/-- Loop of generateForCountry of numberGenerator.js, with the remaining
attempt budget as fuel. Each iteration draws one candidate, accepts it only
when neither the full number nor its prefix was seen, and always counts one
attempt. -/
def genLoop (rule : Option CountryRule) (count : Nat) : Nat → GenSt → GenSt
  | 0, st => st
  | fuel + 1, st =>
    if count ≤ st.out.length then st
    else
      let (num?, g1) := generateOne rule st.g
      match num? with
      | none => genLoop rule count fuel { st with g := g1, tries := st.tries + 1 }
      | some num =>
        let pfx := rulePrefixOf rule num
        if num ∈ st.used ∨ pfx ∈ st.usedP then
          genLoop rule count fuel { st with g := g1, tries := st.tries + 1 }
        else
          genLoop rule count fuel
            { out := st.out ++ [num], used := st.used ++ [num],
              usedP := st.usedP ++ [pfx], g := g1, tries := st.tries + 1 }

/-- Model of generateForCountry of numberGenerator.js. The source copies the
two caller sets into fresh local sets before the loop, so the caller values
are never written; the returned stream component models the global advance of
Math.random. -/
def generateForCountry (pais : Str) (count : Nat) (exclude excludePrefixesIn : List Str)
    (g : RStream) : List Str × RStream :=
  let key := aliasLookup pais
  let rule := rulesLookup key
  let st := genLoop rule count (count * 100) ⟨[], exclude, excludePrefixesIn, g, 0⟩
  (st.out, st.g)

/-- Uniqueness prefix a number generated for a country is stored under, as
computed inside the loop of generateForCountry: the dial code of the rule of
the aliased country, or empty without a rule. -/
def prefixForCountry (pais n : Str) : Str :=
  rulePrefixOf (rulesLookup (aliasLookup pais)) n

/-- Caller-visible contents of the two uniqueness sets after a call to
generateForCountry. The source copies both arguments into fresh local sets
and only inserts into the copies, so the caller sets are returned unchanged. -/
def callerSetsAfterGenerate (exclude excludePrefixesIn : List Str) : List Str × List Str :=
  (exclude, excludePrefixesIn)

/-- Output-name table of normalizeCountryName of numberGenerator.js. -/
def displayNames : List (Str × Str) :=
  [ (str r"Mexico", str r"Mexico"), (str r"Argentina", str r"Argentina"),
    (str r"España", str r"España"), (str r"Colombia", str r"Colombia"),
    (str r"Chile", str r"Chile"), (str r"Peru", str r"Peru"),
    (str r"USA", str r"USA"), (str r"Canada", str r"Canada")]

/-- Model of normalizeCountryName of numberGenerator.js. -/
def normalizeCountryName (p : Str) : Str :=
  let n := aliasLookup p
  ((displayNames.find? (fun q => q.1 == n)).map (fun q => q.2)).getD n

/-- Loop of generateFromCounts of numberGenerator.js: one country at a time,
inserting every returned number and its prefix into the shared local sets
before moving to the next country. The JS per-number insertions are batched
per country, which reaches the same state in the same order. -/
def generateFromCountsLoop :
    List (Str × Nat) → List (Str × Str) → List Str → List Str → RStream →
    List (Str × Str) × List Str × List Str × RStream
  | [], all, used, usedP, g => (all, used, usedP, g)
  | (pais, count) :: rest, all, used, usedP, g =>
    if count = 0 then generateFromCountsLoop rest all used usedP g
    else
      let rule := rulesLookup (aliasLookup pais)
      let (nums, g1) := generateForCountry pais count used usedP g
      generateFromCountsLoop rest
        (all ++ nums.map (fun n => (normalizeCountryName pais, n)))
        (used ++ nums)
        (usedP ++ nums.map (fun n => rulePrefixOf rule n)) g1

/-- Model of generateFromCounts of numberGenerator.js. The exclude argument
is copied into the initial shared set; the prefix set starts empty. -/
def generateFromCounts (countByCountry : List (Str × Nat)) (exclude : List Str)
    (g : RStream) : List (Str × Str) × RStream :=
  let r := generateFromCountsLoop countByCountry [] exclude [] g
  (r.1, r.2.2.2)

/-- Two-digit dial codes probed in order by extractCountryCode of
src/batchCall/batchCallUtils.js. -/
def groupTwoDigitCodes : List Str :=
  [ str r"54", str r"52", str r"34", str r"57", str r"56", str r"51",
    str r"55", str r"33", str r"39", str r"44", str r"49", str r"86",
    str r"81", str r"82", str r"91"]

/-- Three-digit dial codes known to extractCountryCode of batchCallUtils.js. -/
def groupThreeDigitCodes : List Str :=
  [ str r"212", str r"213", str r"216", str r"218", str r"220", str r"221",
    str r"222", str r"223", str r"224", str r"225", str r"226", str r"227",
    str r"228", str r"229", str r"230", str r"231", str r"232", str r"233",
    str r"234", str r"235", str r"236", str r"237", str r"238", str r"239",
    str r"240", str r"241", str r"242", str r"243", str r"244", str r"245",
    str r"246", str r"247", str r"248", str r"249", str r"250", str r"251",
    str r"252", str r"253", str r"254", str r"255", str r"256", str r"257",
    str r"258", str r"260", str r"261", str r"262", str r"263", str r"264",
    str r"265", str r"266", str r"267", str r"268", str r"269", str r"290",
    str r"291", str r"297", str r"298", str r"299"]

/-- Model of extractCountryCode of batchCallUtils.js. -/
def extractCountryCode (phoneNumber : Str) : Option Str :=
  if phoneNumber = [] then none
  else
    let digits := if phoneNumber.take 1 = ['+'] then phoneNumber.drop 1 else phoneNumber
    if (['1'] : Str).isPrefixOf digits ∧ 11 ≤ digits.length then some ['1']
    else
      match groupTwoDigitCodes.find? (fun c => c.isPrefixOf digits) with
      | some c => some c
      | none =>
        if 3 ≤ digits.length ∧ groupThreeDigitCodes.contains (digits.take 3) then
          some (digits.take 3)
        else if 2 ≤ digits.length then some (digits.take 2)
        else none

/-- Model of extractPrefixForGrouping of batchCallUtils.js: resolves the
country code, finds the first rule carrying that code in object order, and
delegates to the shared prefix extractor. -/
def extractPrefixForGrouping (phoneNumber : Str) : Option Str :=
  if phoneNumber = [] then none
  else
    match extractCountryCode phoneNumber with
    | none => none
    | some cc =>
      let rule := (COUNTRY_RULES.find? (fun q => q.2.code == cc)).map (fun q => q.2)
      some ( extractPrefix phoneNumber cc rule)

/-- Generated-number entry consumed by the grouper. The JS fallback chain
phone_number or numero_generado or the raw value is collapsed into the single
phone field; nickname and pais are carried for group labels. -/
structure GenNumber where
  phone : Str
  nickname : Option Str
  pais : Option Str
deriving DecidableEq

/-- Contact row consumed by the grouper. The JS fallback chain phone_number
or PhoneNumber or phone is collapsed into the single phone field; id stands
for the remaining payload. -/
structure Contact where
  phone : Option Str
  id : Nat
deriving DecidableEq

/-- Adds a leading plus when missing. -/
def plusNorm (s : Str) : Str :=
  if s.take 1 = ['+'] then s else '+' :: s

/-- Model of findMatchingGeneratedNumber of batchCallUtils.js: first the
generated number whose grouping prefix equals the contact prefix, then the
first generated number sharing the contact country code, else none. -/
def findMatchingGeneratedNumber (contactPhoneNumber : Str)
    (generatedNumbers : List GenNumber) : Option GenNumber :=
  if contactPhoneNumber = [] ∨ generatedNumbers = [] then none
  else
    match extractPrefixForGrouping contactPhoneNumber with
    | none => none
    | some contactPfx =>
      let normalizedContact := plusNorm contactPhoneNumber
      let contactCountryCode := extractCountryCode normalizedContact
      match generatedNumbers.find?
          (fun gn => extractPrefixForGrouping (plusNorm gn.phone) == some contactPfx) with
      | some gn => some { gn with phone := plusNorm gn.phone }
      | none =>
        match contactCountryCode with
        | none => none
        | some ccc =>
          match generatedNumbers.find?
              (fun gn => extractCountryCode (plusNorm gn.phone) == some ccc) with
          | some gn => some { gn with phone := plusNorm gn.phone }
          | none => none

/-- One batch group: the originating generated number, its label, and the
contacts assigned to it. -/
structure BatchGroup where
  from_number : Str
  nickname : Option Str
  contacts : List Contact
deriving DecidableEq

/-- Insertion into the group map of groupContactsByPrefix, which is keyed by
the originating number and keeps insertion order. -/
def addToGroups (groups : List BatchGroup) (fromNumber : Str) (nick : Option Str)
    (c : Contact) : List BatchGroup :=
  if groups.any (fun g => g.from_number == fromNumber) then
    groups.map (fun g =>
      if g.from_number == fromNumber then { g with contacts := g.contacts ++ [c] } else g)
  else groups ++ [{ from_number := fromNumber, nickname := nick, contacts := [c] }]

/-- Body of the contact loop of groupContactsByPrefix of batchCallUtils.js:
contacts without a phone or without a matching generated number leave the
group map unchanged. -/
def groupStep (gens : List GenNumber) (groups : List BatchGroup) (c : Contact) :
    List BatchGroup :=
  match c.phone with
  | none => groups
  | some ph =>
    if ph = [] then groups
    else
      let normalizedPhone := plusNorm ph
      match findMatchingGeneratedNumber normalizedPhone gens with
      | none => groups
      | some m =>
        addToGroups groups (plusNorm m.phone) (m.nickname.orElse (fun _ => m.pais))
          { c with phone := some normalizedPhone }

/-- Model of groupContactsByPrefix of batchCallUtils.js: contacts without a
phone or without a matching generated number are skipped silently. -/
def groupContactsByPrefix (contacts : List Contact) (gens : List GenNumber) :
    List BatchGroup :=
  contacts.foldl (groupStep gens) []

/-- Returns true exactly on the valid outcome. -/
def VOutcome.isValid : VOutcome → Bool
  | .valid _ => true
  | .invalid _ => false

/-- Dial-code resolution as worded by the specification: a leading 1 with at
least 11 digits gives the one-digit NANP code, otherwise at least ten digits
give the two-digit code when the first two digits stand in the allow-list and
the three-digit code when not, and fewer than ten digits fail. Stated from
the specification text for comparison with splitE164. -/
def resolveDialCodeSpec (d : Str) : Option (Str × Str) :=
  if (['1'] : Str).isPrefixOf d ∧ 11 ≤ d.length then some (['1'], d.drop 1)
  else if 10 ≤ d.length then
    if d.take 2 ∈ twoCodes then some (d.take 2, d.drop 2)
    else some (d.take 3, d.drop 3)
  else none

/-! Helper lemmas about characters, trimming and digit filtering. -/

lemma dropWhile_eq_self_of (p : Char → Bool) (l : Str) (h : ∀ c ∈ l, p c = false) :
    l.dropWhile p = l := by
  cases l with
  | nil => rfl
  | cons a t => simp [List.dropWhile_cons, h a (by simp)]

lemma trimStr_eq_self (s : Str) (h : ∀ c ∈ s, c.isWhitespace = false) : trimStr s = s := by
  unfold trimStr
  rw [dropWhile_eq_self_of _ _ h]
  rw [dropWhile_eq_self_of _ _ (fun c hc => h c (List.mem_reverse.mp hc))]
  exact List.reverse_reverse s

lemma ws_not_digit (c : Char) (h : c.isWhitespace = true) : c.isDigit = false := by
  simp [Char.isWhitespace] at h
  rcases h with ((h1 | h1) | h1) | h1 <;> (subst h1; decide)

lemma isDigit_not_ws (c : Char) (h : c.isDigit = true) : c.isWhitespace = false := by
  cases hx : c.isWhitespace
  · rfl
  · rw [ws_not_digit c hx] at h
    exact absurd h (by simp)

lemma toE164Digits_of_digits (s : Str) (h : s.all Char.isDigit = true) :
    toE164Digits s = s := by
  unfold toE164Digits
  exact List.filter_eq_self.mpr (fun a ha => (List.all_eq_true.mp h) a ha)

lemma toE164Digits_all (s : Str) : (toE164Digits s).all Char.isDigit = true := by
  rw [List.all_eq_true]
  intro a ha
  exact (List.mem_filter.mp ha).2

lemma toE164Digits_idem (s : Str) : toE164Digits (toE164Digits s) = toE164Digits s :=
  toE164Digits_of_digits _ (toE164Digits_all s)

lemma toE164Digits_plus (s : Str) : toE164Digits ('+' :: s) = toE164Digits s := by
  unfold toE164Digits
  rw [List.filter_cons]
  simp [show ('+').isDigit = false from rfl]

lemma filter_digits_dropWhile_ws (s : Str) :
    (s.dropWhile Char.isWhitespace).filter Char.isDigit = s.filter Char.isDigit := by
  conv_rhs => rw [← (@List.takeWhile_append_dropWhile _ Char.isWhitespace s)]
  rw [List.filter_append]
  have h0 : (s.takeWhile Char.isWhitespace).filter Char.isDigit = [] := by
    apply List.filter_eq_nil_iff.mpr
    intro a ha
    simp [ws_not_digit a (List.mem_takeWhile_imp ha)]
  rw [h0]
  rfl

lemma toE164Digits_trim (s : Str) : toE164Digits (trimStr s) = toE164Digits s := by
  unfold trimStr toE164Digits
  rw [List.filter_reverse, filter_digits_dropWhile_ws, List.filter_reverse,
    filter_digits_dropWhile_ws, List.reverse_reverse]

/-! Helper lemmas about splitE164. -/

lemma splitE164_concat (e d n : Str) (h : splitE164 e = some (d, n)) :
    d ++ n = toE164Digits e := by
  simp only [splitE164] at h
  split_ifs at h with h1 h2 h3 h4
  · obtain ⟨ht, hn⟩ := Prod.mk.injEq .. ▸ Option.some.inj h
    obtain ⟨t, htl⟩ := List.isPrefixOf_iff_prefix.mp h2.1
    subst ht hn
    rw [← htl]
    rfl
  · obtain ⟨ht, hn⟩ := Prod.mk.injEq .. ▸ Option.some.inj h
    subst ht hn
    exact List.take_append_drop 2 (toE164Digits e)
  · obtain ⟨ht, hn⟩ := Prod.mk.injEq .. ▸ Option.some.inj h
    subst ht hn
    exact List.take_append_drop 3 (toE164Digits e)

lemma splitE164_none_short (e : Str) (h : (toE164Digits e).length < 10) :
    splitE164 e = none := by
  simp only [splitE164]
  split_ifs with h1 h2 h3 h4 <;> first
    | rfl
    | (exact absurd h2.2 (by omega))
    | (exact absurd h3 (by omega))

lemma validate_plus_digits (ds pais : Str) (hall : ds.all Char.isDigit = true) :
    validatePhoneForCountry ('+' :: ds) pais =
      (if ds.length < 8 then .invalid .tooShort
       else
        match splitE164 ('+' :: ds) with
        | none => .invalid .noDialCode
        | some (dialCode, _national) =>
          match getCountryByCode dialCode with
          | none => .invalid .codeUnknown
          | some allowed =>
            if ¬ allowed.any (fun c => aliasLookup c = aliasLookup pais ∨ c = aliasLookup pais)
            then .invalid .countryMismatch
            else
              match (getCountryRule pais).orElse (fun _ => getCountryRule (aliasLookup pais)) with
              | some rule =>
                if ds.length < rule.minE164Length.getD 8 ∨
                    rule.maxE164Length.getD 15 < ds.length then
                  .invalid .badLength
                else .valid ('+' :: ds)
              | none =>
                if ds.length < 8 ∨ 15 < ds.length then .invalid .badLength
                else .valid ('+' :: ds)) := by
  have hmem : ∀ c ∈ ds, c.isDigit = true := List.all_eq_true.mp hall
  have htrim : trimStr ('+' :: ds) = '+' :: ds := by
    apply trimStr_eq_self
    intro c hc
    rcases List.mem_cons.mp hc with h | h
    · subst h; decide
    · exact isDigit_not_ws c (hmem c h)
  have hne : ¬ ('+' :: ds = []) := by simp
  have hpref : (['+'] : Str).isPrefixOf ('+' :: ds) = true := by
    simp [List.isPrefixOf]
  have hbad : ¬ ((('+' :: ds).any fun c => ¬ (c.isDigit = true ∨ c = '+')) = true ∨
      2 ≤ ('+' :: ds).count '+') := by
    intro hcontra
    rcases hcontra with hany | hcnt
    · rw [List.any_eq_true] at hany
      obtain ⟨c, hc, hcp⟩ := hany
      have hnp := of_decide_eq_true hcp
      rcases List.mem_cons.mp hc with h | h
      · exact hnp (Or.inr h)
      · exact hnp (Or.inl (hmem c h))
    · have hz : ds.count '+' = 0 := by
        rw [List.count_eq_zero]
        intro hin
        have := hmem '+' hin
        exact absurd this (by decide)
      rw [List.count_cons_self, hz] at hcnt
      omega
  simp only [validatePhoneForCountry, htrim]
  rw [if_neg hne, if_neg (not_not_intro hpref), if_neg hbad, toE164Digits_plus,
    toE164Digits_of_digits ds hall]

/-! Helper lemmas about the generation loop. -/

lemma nodup_snoc {α : Type} (l : List α) (a : α) (h : l.Nodup) (ha : a ∉ l) :
    (l ++ [a]).Nodup := by
  rw [List.nodup_append]
  exact ⟨h, List.nodup_singleton a, by
    intro x hx hxa
    rcases List.mem_singleton.mp hxa with rfl
    exact ha hx⟩

lemma genLoop_length (rule : Option CountryRule) (count : Nat) :
    ∀ (fuel : Nat) (st : GenSt),
      (genLoop rule count fuel st).out.length ≤ max st.out.length count := by
  intro fuel
  induction fuel with
  | zero => intro st; exact Nat.le_max_left _ _
  | succ m ih =>
    intro st
    by_cases hstop : count ≤ st.out.length
    · simp [genLoop, hstop]
    · rcases hgen : generateOne rule st.g with ⟨numo, g1⟩
      cases numo with
      | none =>
        simpa [genLoop, hstop, hgen] using ih { st with g := g1, tries := st.tries + 1 }
      | some num =>
        simp only [genLoop, hstop, hgen, if_false]
        split
        · exact ih _
        · have h2 := ih ⟨st.out ++ [num], st.used ++ [num],
            st.usedP ++ [rulePrefixOf rule num], g1, st.tries + 1⟩
          simp only [List.length_append, List.length_singleton] at h2 ⊢
          omega

lemma genLoop_tries (rule : Option CountryRule) (count : Nat) :
    ∀ (fuel : Nat) (st : GenSt),
      (genLoop rule count fuel st).tries ≤ st.tries + fuel := by
  intro fuel
  induction fuel with
  | zero => intro st; exact Nat.le_refl _
  | succ m ih =>
    intro st
    by_cases hstop : count ≤ st.out.length
    · simp [genLoop, hstop]
    · rcases hgen : generateOne rule st.g with ⟨numo, g1⟩
      cases numo with
      | none =>
        have h2 := ih { st with g := g1, tries := st.tries + 1 }
        simp only [genLoop, hstop, hgen, if_false]
        simp only at h2
        omega
      | some num =>
        simp only [genLoop, hstop, hgen, if_false]
        split
        · have h2 := ih { st with g := g1, tries := st.tries + 1 }
          simp only at h2 ⊢
          omega
        · have h2 := ih ⟨st.out ++ [num], st.used ++ [num],
            st.usedP ++ [rulePrefixOf rule num], g1, st.tries + 1⟩
          simp only at h2 ⊢
          omega

lemma genLoop_sound (rule : Option CountryRule) (count : Nat) (Q : Str → Prop)
    (hQ : ∀ (g : RStream) (n : Str) (g1 : RStream),
      generateOne rule g = (some n, g1) → Q n) :
    ∀ (fuel : Nat) (st : GenSt), (∀ n ∈ st.out, Q n) →
      ∀ n ∈ (genLoop rule count fuel st).out, Q n := by
  intro fuel
  induction fuel with
  | zero => intro st h0; exact h0
  | succ m ih =>
    intro st h0
    by_cases hstop : count ≤ st.out.length
    · simpa [genLoop, hstop] using h0
    · rcases hgen : generateOne rule st.g with ⟨numo, g1⟩
      cases numo with
      | none =>
        simp only [genLoop, hstop, hgen, if_false]
        exact ih _ h0
      | some num =>
        simp only [genLoop, hstop, hgen, if_false]
        split
        · exact ih _ h0
        · apply ih
          intro n hn
          rcases List.mem_append.mp hn with h | h
          · exact h0 n h
          · rcases List.mem_singleton.mp h with rfl
            exact hQ st.g n g1 hgen

lemma genLoop_inv (rule : Option CountryRule) (count : Nat) (E P : List Str) :
    ∀ (fuel : Nat) (st : GenSt),
      st.out.Nodup →
      (st.out.map (rulePrefixOf rule)).Nodup →
      (∀ n ∈ st.out, n ∉ E) →
      (∀ n ∈ st.out, rulePrefixOf rule n ∉ P) →
      (∀ x ∈ E, x ∈ st.used) →
      (∀ x ∈ P, x ∈ st.usedP) →
      (∀ n ∈ st.out, n ∈ st.used) →
      (∀ n ∈ st.out, rulePrefixOf rule n ∈ st.usedP) →
      (genLoop rule count fuel st).out.Nodup ∧
      ((genLoop rule count fuel st).out.map (rulePrefixOf rule)).Nodup ∧
      (∀ n ∈ (genLoop rule count fuel st).out, n ∉ E) ∧
      (∀ n ∈ (genLoop rule count fuel st).out, rulePrefixOf rule n ∉ P) ∧
      (∀ x ∈ E, x ∈ (genLoop rule count fuel st).used) ∧
      (∀ x ∈ P, x ∈ (genLoop rule count fuel st).usedP) := by
  intro fuel
  induction fuel with
  | zero =>
    intro st h1 h2 h3 h4 h5 h6 h7 h8
    exact ⟨h1, h2, h3, h4, h5, h6⟩
  | succ m ih =>
    intro st h1 h2 h3 h4 h5 h6 h7 h8
    by_cases hstop : count ≤ st.out.length
    · simp only [genLoop, hstop, if_true]
      exact ⟨h1, h2, h3, h4, h5, h6⟩
    · rcases hgen : generateOne rule st.g with ⟨numo, g1⟩
      cases numo with
      | none =>
        simp only [genLoop, hstop, hgen, if_false]
        exact ih _ h1 h2 h3 h4 h5 h6 h7 h8
      | some num =>
        simp only [genLoop, hstop, hgen, if_false]
        split
        · exact ih _ h1 h2 h3 h4 h5 h6 h7 h8
        · rename_i hfresh
          push_neg at hfresh
          obtain ⟨hfu, hfp⟩ := hfresh
          refine ih _ ?_ ?_ ?_ ?_ ?_ ?_ ?_ ?_
          · exact nodup_snoc _ _ h1 (fun hmem => hfu (h7 num hmem))
          · rw [List.map_append]
            refine nodup_snoc _ _ h2 ?_
            intro hmem
            obtain ⟨y, hy, hye⟩ := List.mem_map.mp (by simpa using hmem)
            exact hfp (hye ▸ h8 y hy)
          · intro n hn
            rcases List.mem_append.mp hn with h | h
            · exact h3 n h
            · rcases List.mem_singleton.mp h with rfl
              exact fun hE => hfu (h5 n hE)
          · intro n hn
            rcases List.mem_append.mp hn with h | h
            · exact h4 n h
            · rcases List.mem_singleton.mp h with rfl
              exact fun hP => hfp (h6 _ hP)
          · intro x hx
            exact List.mem_append_left _ (h5 x hx)
          · intro x hx
            exact List.mem_append_left _ (h6 x hx)
          · intro n hn
            rcases List.mem_append.mp hn with h | h
            · exact List.mem_append_left _ (h7 n h)
            · exact List.mem_append_right _ h
          · intro n hn
            rcases List.mem_append.mp hn with h | h
            · exact List.mem_append_left _ (h8 n h)
            · rcases List.mem_singleton.mp h with rfl
              exact List.mem_append_right _ (List.mem_singleton.mpr rfl)

set_option maxRecDepth 40000 in
/-- C4 (code_bug evidence): the validator rejects the Spanish mobile number
declared with label España, answering the unknown-code error, because
CODE_TO_COUNTRY carries no entry for dial code 34 and COUNTRY_RULES no
Spanish rule, although the repository README lists España among the supported
countries and the generator and normalizer both carry Spain branches. -/
theorem validate_spain_label_rejected :
    validatePhoneForCountry (str r"+34612345678") (str r"España") =
      .invalid .codeUnknown := by
  decide

/-- C7: for every country, requested count, uniqueness sets and draw stream,
generation terminates with at most count numbers returned and at most
count times 100 attempts consumed, never an error. -/
theorem generateForCountry_bounded (pais : Str) (count : Nat) (ex ep : List Str)
    (g : RStream) :
    (generateForCountry pais count ex ep g).1.length ≤ count
    ∧ (genLoop (rulesLookup (aliasLookup pais)) count (count * 100)
        ⟨[], ex, ep, g, 0⟩).tries ≤ count * 100 := by
  constructor
  · have h := genLoop_length (rulesLookup (aliasLookup pais)) count (count * 100)
      ⟨[], ex, ep, g, 0⟩
    simpa using h
  · have h := genLoop_tries (rulesLookup (aliasLookup pais)) count (count * 100)
      ⟨[], ex, ep, g, 0⟩
    simpa using h

/-- C1 (amended): every returned list is free of duplicate numbers and of
duplicate prefixes, avoids both caller supplied sets, and never exceeds the
requested length; exact length k is not guaranteed. -/
theorem generateForCountry_unique (pais : Str) (k : Nat) (ex ep : List Str)
    (g : RStream) (n : Str)
    (hn : n ∈ (generateForCountry pais k ex ep g).1) :
    (generateForCountry pais k ex ep g).1.Nodup
    ∧ ((generateForCountry pais k ex ep g).1.map (prefixForCountry pais)).Nodup
    ∧ n ∉ ex ∧ prefixForCountry pais n ∉ ep
    ∧ (generateForCountry pais k ex ep g).1.length ≤ k := by
  have hinv := genLoop_inv (rulesLookup (aliasLookup pais)) k ex ep (k * 100)
      ⟨[], ex, ep, g, 0⟩ (by simp) (by simp) (by simp) (by simp)
      (fun x hx => hx) (fun x hx => hx) (by simp) (by simp)
  obtain ⟨i1, i2, i3, i4, _, _⟩ := hinv
  have hlen := genLoop_length (rulesLookup (aliasLookup pais)) k (k * 100)
      ⟨[], ex, ep, g, 0⟩
  exact ⟨i1, i2, i3 n hn, i4 n hn, by simpa using hlen⟩

set_option maxRecDepth 100000 in
/-- Witness for the C1 theorem at a concrete Chile call with nonempty
uniqueness sets. -/
theorem generateForCountry_unique_witness :
    (str r"+56910000000") ∈
        (generateForCountry (str r"Chile") 1 [str r"+15550000000"] [str r"1555"] []).1
    ∧ ((generateForCountry (str r"Chile") 1 [str r"+15550000000"] [str r"1555"] []).1.Nodup
      ∧ ((generateForCountry (str r"Chile") 1 [str r"+15550000000"] [str r"1555"] []).1.map
          (prefixForCountry (str r"Chile"))).Nodup
      ∧ (str r"+56910000000") ∉ [str r"+15550000000"]
      ∧ prefixForCountry (str r"Chile") (str r"+56910000000") ∉ [str r"1555"]
      ∧ (generateForCountry (str r"Chile") 1 [str r"+15550000000"] [str r"1555"] []).1.length ≤ 1) :=
  ⟨by decide, generateForCountry_unique _ _ _ _ _ _ (by decide)⟩

set_option maxRecDepth 400000 in
/-- C1 counterexample: for Chile with k equal 2 and empty uniqueness sets the
prefix space offers at least two available combinations (two reachable
candidates with distinct fresh prefixes), yet on the constant-zero draw
stream the call returns a single number, refuting the exact-length clause. -/
theorem generateForCountry_length_cex :
    (generateOne (rulesLookup (aliasLookup (str r"Chile"))) []).1 =
        some (str r"+56910000000")
    ∧ (generateOne (rulesLookup (aliasLookup (str r"Chile"))) [2]).1 =
        some (str r"+56920000000")
    ∧ prefixForCountry (str r"Chile") (str r"+56910000000") ≠
        prefixForCountry (str r"Chile") (str r"+56920000000")
    ∧ (generateForCountry (str r"Chile") 2 [] [] []).1.length = 1 := by
  refine ⟨by decide, by decide, by decide, ?_⟩
  decide

/-! Helper lemmas about the batch generation loop. -/

lemma gfcLoop_used_mono (x : Str) :
    ∀ (cs : List (Str × Nat)) (all : List (Str × Str)) (used usedP : List Str)
      (g : RStream), x ∈ used →
      x ∈ (generateFromCountsLoop cs all used usedP g).2.1 := by
  intro cs
  induction cs with
  | nil => intro all used usedP g hx; exact hx
  | cons hd rest ih =>
    intro all used usedP g hx
    rcases hd with ⟨pais, count⟩
    by_cases hc : count = 0
    · simpa [generateFromCountsLoop, hc] using ih all used usedP g hx
    · rcases hg : generateForCountry pais count used usedP g with ⟨nums, g1⟩
      simp only [generateFromCountsLoop, hc, if_false, hg]
      exact ih _ _ _ _ (List.mem_append_left _ hx)

lemma gfcLoop_usedP_mono (x : Str) :
    ∀ (cs : List (Str × Nat)) (all : List (Str × Str)) (used usedP : List Str)
      (g : RStream), x ∈ usedP →
      x ∈ (generateFromCountsLoop cs all used usedP g).2.2.1 := by
  intro cs
  induction cs with
  | nil => intro all used usedP g hx; exact hx
  | cons hd rest ih =>
    intro all used usedP g hx
    rcases hd with ⟨pais, count⟩
    by_cases hc : count = 0
    · simpa [generateFromCountsLoop, hc] using ih all used usedP g hx
    · rcases hg : generateForCountry pais count used usedP g with ⟨nums, g1⟩
      simp only [generateFromCountsLoop, hc, if_false, hg]
      exact ih _ _ _ _ (List.mem_append_left _ hx)

lemma gfcLoop_gen_recorded (p n : Str) :
    ∀ (cs : List (Str × Nat)) (all : List (Str × Str)) (used usedP : List Str)
      (g : RStream), (p, n) ∈ (generateFromCountsLoop cs all used usedP g).1 →
      (p, n) ∈ all ∨
        (n ∈ (generateFromCountsLoop cs all used usedP g).2.1 ∧
          ∃ pais0, normalizeCountryName pais0 = p ∧
            prefixForCountry pais0 n ∈ (generateFromCountsLoop cs all used usedP g).2.2.1) := by
  intro cs
  induction cs with
  | nil => intro all used usedP g hmem; exact Or.inl hmem
  | cons hd rest ih =>
    intro all used usedP g hmem
    rcases hd with ⟨pais, count⟩
    by_cases hc : count = 0
    · simp only [generateFromCountsLoop, hc, if_true] at hmem ⊢
      exact ih all used usedP g hmem
    · rcases hg : generateForCountry pais count used usedP g with ⟨nums, g1⟩
      simp only [generateFromCountsLoop, hc, if_false, hg] at hmem ⊢
      rcases ih _ _ _ _ hmem with hall | hrec
      · rcases List.mem_append.mp hall with hold | hnew
        · exact Or.inl hold
        · obtain ⟨y, hy, hye⟩ := List.mem_map.mp hnew
          obtain ⟨hp, hn⟩ := Prod.mk.injEq .. ▸ hye
          refine Or.inr ⟨?_, pais, hp, ?_⟩
          · subst hn
            exact gfcLoop_used_mono y rest _ _ _ _ (List.mem_append_right _ hy)
          · subst hn hp
            refine gfcLoop_usedP_mono _ rest _ _ _ _ ?_
            exact List.mem_append_right _ (List.mem_map.mpr ⟨y, hy, rfl⟩)
      · obtain ⟨h1, pais0, h2, h3⟩ := hrec
        exact Or.inr ⟨h1, pais0, h2, h3⟩

set_option maxRecDepth 200000 in
/-- C6 counterexample: generateForCountry copies the caller sets into local
sets instead of mutating them, so after a call returning a fresh Chile number
the caller sets, returned unchanged, contain neither the number nor its
prefix. -/
theorem generateForCountry_no_mutation_cex :
    (generateForCountry (str r"Chile") 1 [] [] []).1 = [str r"+56910000000"]
    ∧ (str r"+56910000000") ∉ (callerSetsAfterGenerate [] []).1
    ∧ prefixForCountry (str r"Chile") (str r"+56910000000") ∉
        (callerSetsAfterGenerate [] []).2 := by
  decide

/-- C6 (amended): the per-country generator leaves the caller sets untouched;
it is the batch loop generateFromCounts that threads its own shared pair of
sets, into which every generated number and its prefix are inserted and from
which nothing is ever removed. -/
theorem generateFromCounts_updates (cs : List (Str × Nat)) (ex : List Str)
    (g : RStream) (p n x : Str)
    (hn : (p, n) ∈ (generateFromCounts cs ex g).1)
    (hx : x ∈ ex) :
    x ∈ (generateFromCountsLoop cs [] ex [] g).2.1
    ∧ n ∈ (generateFromCountsLoop cs [] ex [] g).2.1
    ∧ ∃ pais0, normalizeCountryName pais0 = p ∧
        prefixForCountry pais0 n ∈ (generateFromCountsLoop cs [] ex [] g).2.2.1 := by
  have hx2 := gfcLoop_used_mono x cs [] ex [] g hx
  have hrec := gfcLoop_gen_recorded p n cs [] ex [] g hn
  rcases hrec with habs | ⟨h1, pais0, h2, h3⟩
  · exact absurd habs (by simp)
  · exact ⟨hx2, h1, pais0, h2, h3⟩

set_option maxRecDepth 200000 in
/-- Witness for the C6 theorem at a concrete one-country batch. -/
theorem generateFromCounts_updates_witness :
    ((str r"Chile", str r"+56910000000") ∈
        (generateFromCounts [(str r"Chile", 1)] [str r"+15550000000"] []).1
      ∧ (str r"+15550000000") ∈ ([str r"+15550000000"] : List Str))
    ∧ ((str r"+15550000000") ∈
        (generateFromCountsLoop [(str r"Chile", 1)] [] [str r"+15550000000"] [] []).2.1
      ∧ (str r"+56910000000") ∈
        (generateFromCountsLoop [(str r"Chile", 1)] [] [str r"+15550000000"] [] []).2.1
      ∧ ∃ pais0, normalizeCountryName pais0 = str r"Chile" ∧
          prefixForCountry pais0 (str r"+56910000000") ∈
            (generateFromCountsLoop [(str r"Chile", 1)] [] [str r"+15550000000"] [] []).2.2.1) :=
  ⟨⟨by decide, by decide⟩,
    generateFromCounts_updates _ _ _ _ _ _ (by decide) (by decide)⟩

/-! Helper lemmas about batch validation. -/

lemma keepDupLoop_out (v : Str → Str → VOutcome) :
    ∀ (rs : List RawRecord) (out : List (RawRecord × Str))
      (errs : List (RawRecord × ErrKind)),
      (validateRecordsKeepDupLoop v rs out errs).1 =
        out ++ rs.filterMap (fun r =>
          match v r.phone r.pais with
          | .valid e => some (r, e)
          | .invalid _ => none) := by
  intro rs
  induction rs with
  | nil => intro out errs; simp [validateRecordsKeepDupLoop]
  | cons r rest ih =>
    intro out errs
    cases hv : v r.phone r.pais with
    | invalid e =>
      simp only [validateRecordsKeepDupLoop, hv, List.filterMap_cons]
      exact ih out _
    | valid e =>
      simp only [validateRecordsKeepDupLoop, hv, List.filterMap_cons]
      rw [ih]
      simp

lemma dedupLoop_nodup :
    ∀ (rs : List RawRecord) (seen : List Str) (out : List (RawRecord × Str))
      (errs : List (RawRecord × ErrKind)),
      (out.map Prod.snd).Nodup → (∀ e ∈ out.map Prod.snd, e ∈ seen) →
      ((validateRecordsLoop rs seen out errs).1.map Prod.snd).Nodup := by
  intro rs
  induction rs with
  | nil => intro seen out errs h1 _; exact h1
  | cons r rest ih =>
    intro seen out errs h1 h2
    cases hv : validatePhoneForCountry r.phone r.pais with
    | invalid e =>
      simp only [validateRecordsLoop, hv]
      exact ih seen out _ h1 h2
    | valid e =>
      simp only [validateRecordsLoop, hv]
      by_cases hs : e ∈ seen
      · simp only [hs, if_true]
        exact ih seen out errs h1 h2
      · simp only [hs, if_false]
        apply ih
        · rw [List.map_append]
          exact nodup_snoc _ _ h1 (fun hmem => hs (h2 e hmem))
        · intro x hx
          rw [List.map_append] at hx
          rcases List.mem_append.mp hx with h | h
          · exact List.mem_append_left _ (h2 x h)
          · exact List.mem_append_right _ h

set_option maxRecDepth 100000 in
/-- C5 counterexample: two records carrying the same valid Colombian number
are both accepted by the validator, yet the rules revision of validateRecords
returns only the first of them, silently dropping the duplicate. -/
theorem validateRecords_dup_dropped_cex :
    validatePhoneForCountry (str r"+573001234567") (str r"Colombia") =
        .valid (str r"+573001234567")
    ∧ (validateRecords [⟨str r"+573001234567", str r"Colombia", str r"a"⟩,
        ⟨str r"+573001234567", str r"Colombia", str r"b"⟩]).1 =
      [(⟨str r"+573001234567", str r"Colombia", str r"a"⟩, str r"+573001234567")] := by
  exact ⟨by decide, by decide⟩

/-- C5 (amended): the libphonenumber revision of validateRecords keeps every
valid row including duplicate e164 values, for any per-row validator; the
country-rules revision deduplicates by e164, so its valid output never holds
a repeated e164 value and only the first row per value survives. -/
theorem validateRecords_dup_behavior (v : Str → Str → VOutcome)
    (records : List RawRecord) :
    (validateRecordsKeepDup v records).1 =
      records.filterMap (fun r =>
        match v r.phone r.pais with
        | .valid e => some (r, e)
        | .invalid _ => none)
    ∧ ((validateRecords records).1.map Prod.snd).Nodup := by
  constructor
  · rw [validateRecordsKeepDup, keepDupLoop_out]
    rfl
  · exact dedupLoop_nodup records [] [] [] (by simp) (by simp)

/-- C10: any input whose digit content is shorter than ten digits is rejected
by the validator, although the explicit length guard only demands eight:
dial-code resolution fails below ten digits. -/
theorem validate_under_ten_rejected (phone pais : Str)
    (h : (toE164Digits phone).length < 10) :
    (validatePhoneForCountry phone pais).isValid = false := by
  simp only [validatePhoneForCountry]
  split_ifs <;> try rfl
  all_goals rw [splitE164_none_short _ (by
    rw [toE164Digits_plus, toE164Digits_idem, toE164Digits_trim]
    exact h)]
  all_goals rfl

set_option maxRecDepth 40000 in
/-- Witness for the C10 theorem at an eight-digit input. -/
theorem validate_under_ten_rejected_witness :
    (toE164Digits (str r"+12345678")).length < 10
    ∧ (validatePhoneForCountry (str r"+12345678") (str r"USA")).isValid = false :=
  ⟨by decide, validate_under_ten_rejected _ (str r"USA") (by decide)⟩

/-- C3: on digit strings the source dial-code resolution agrees everywhere
with the resolution rule as worded by the specification. -/
theorem splitE164_matches_spec (d : Str) (h : d.all Char.isDigit = true) :
    splitE164 d = resolveDialCodeSpec d := by
  simp only [splitE164, resolveDialCodeSpec, toE164Digits_of_digits d h]
  by_cases hd : d = []
  · subst hd; decide
  · simp [hd]

/-- Witness for the C3 theorem at an eleven-digit NANP string. -/
theorem splitE164_matches_spec_witness :
    (str r"12345678901").all Char.isDigit = true
    ∧ splitE164 (str r"12345678901") = resolveDialCodeSpec (str r"12345678901") :=
  ⟨by decide, splitE164_matches_spec _ (by decide)⟩

/-! Helper lemmas about the decomposition routines. -/

lemma argentinaSplit_concat (d rest full : Str) :
    (argentinaSplit d rest full).country_code = d
    ∧ (argentinaSplit d rest full).area_code ++
        (argentinaSplit d rest full).local_number = rest := by
  unfold argentinaSplit
  split_ifs with h1 h2 h3 h4 h5
  · obtain ⟨t, ht⟩ := List.isPrefixOf_iff_prefix.mp h1.1
    refine ⟨rfl, ?_⟩
    rw [← ht]
    rfl
  · exact ⟨rfl, List.take_append_drop 4 rest⟩
  · exact ⟨rfl, List.take_append_drop 3 rest⟩
  · exact ⟨rfl, List.take_append_drop 2 rest⟩
  · exact ⟨rfl, rfl⟩
  · exact ⟨rfl, rfl⟩

lemma normalizeArgentina_concat (d nat full : Str) :
    (normalizeArgentina d nat full).country_code = d
    ∧ ((normalizeArgentina d nat full).area_code ++
          (normalizeArgentina d nat full).local_number = nat
       ∨ nat = '9' :: ((normalizeArgentina d nat full).area_code ++
          (normalizeArgentina d nat full).local_number)) := by
  unfold normalizeArgentina
  split_ifs with h1 h2
  · obtain ⟨t, ht⟩ := List.isPrefixOf_iff_prefix.mp h1.2
    have hc := argentinaSplit_concat d (nat.drop 1) full
    refine ⟨hc.1, Or.inr ?_⟩
    rw [hc.2, ← ht]
    rfl
  · have hc := argentinaSplit_concat d nat full
    exact ⟨hc.1, Or.inl hc.2⟩
  · exact ⟨rfl, Or.inl rfl⟩

lemma normalizeMexico_concat (d nat full : Str) (rule : CountryRule) :
    (normalizeMexico d nat full rule).country_code = d
    ∧ (normalizeMexico d nat full rule).area_code ++
        (normalizeMexico d nat full rule).local_number = nat := by
  unfold normalizeMexico
  split_ifs <;>
    first
      | exact ⟨rfl, List.take_append_drop 3 nat⟩
      | exact ⟨rfl, List.take_append_drop 2 nat⟩
      | exact ⟨rfl, rfl⟩

lemma normalizeColombia_concat (d nat full : Str) :
    (normalizeColombia d nat full).country_code = d
    ∧ (normalizeColombia d nat full).area_code ++
        (normalizeColombia d nat full).local_number = nat := by
  unfold normalizeColombia
  split_ifs <;>
    first
      | exact ⟨rfl, List.take_append_drop 3 nat⟩
      | exact ⟨rfl, rfl⟩

lemma normalizeChile_concat (d nat full : Str) :
    (normalizeChile d nat full).country_code = d
    ∧ (normalizeChile d nat full).area_code ++
        (normalizeChile d nat full).local_number = nat := by
  unfold normalizeChile
  split_ifs with h1 h2
  · obtain ⟨t, ht⟩ := List.isPrefixOf_iff_prefix.mp h1.2
    refine ⟨rfl, ?_⟩
    rw [← ht]
    rfl
  · have hta := List.take_append_drop 1 nat
    rw [h2] at hta
    exact ⟨rfl, hta⟩
  · exact ⟨rfl, rfl⟩

lemma normalizePeru_concat (d nat full : Str) :
    (normalizePeru d nat full).country_code = d
    ∧ (normalizePeru d nat full).area_code ++
        (normalizePeru d nat full).local_number = nat := by
  unfold normalizePeru
  split_ifs with h1 h2
  · obtain ⟨t, ht⟩ := List.isPrefixOf_iff_prefix.mp h1.2
    refine ⟨rfl, ?_⟩
    rw [← ht]
    rfl
  · have hta := List.take_append_drop 1 nat
    rw [h2] at hta
    exact ⟨rfl, hta⟩
  · exact ⟨rfl, rfl⟩

lemma normalizeNANP_concat (d nat full : Str) :
    (normalizeNANP d nat full).country_code = d
    ∧ (normalizeNANP d nat full).area_code ++
        (normalizeNANP d nat full).local_number = nat := by
  unfold normalizeNANP
  split_ifs <;>
    first
      | exact ⟨rfl, List.take_append_drop 3 nat⟩
      | exact ⟨rfl, rfl⟩

lemma validate_valid_shape (phone pais e164 : Str)
    (h : validatePhoneForCountry phone pais = .valid e164) :
    e164 = '+' :: toE164Digits (trimStr phone)
    ∧ ∃ d n, splitE164 e164 = some (d, n) := by
  simp only [validatePhoneForCountry] at h
  split at h
  · exact absurd h (by simp)
  split at h
  · exact absurd h (by simp)
  split at h
  · exact absurd h (by simp)
  split at h
  · exact absurd h (by simp)
  split at h
  · exact absurd h (by simp)
  rename_i d n hsp
  split at h
  · exact absurd h (by simp)
  rename_i allowed hcc
  split at h
  · exact absurd h (by simp)
  split at h
  · split at h
    · exact absurd h (by simp)
    · obtain rfl := VOutcome.valid.inj h
      exact ⟨rfl, d, n, hsp⟩
  · split at h
    · exact absurd h (by simp)
    · obtain rfl := VOutcome.valid.inj h
      exact ⟨rfl, d, n, hsp⟩

/-- C2 (amended): for every number the validator accepts, re-concatenating
the decomposition reconstructs the digit string, except that for an Argentine
mobile number, whose national number starts with the inserted 9, the digits
equal the concatenation with that 9 restored between country code and area
code: the decomposition drops the mobile indicator. -/
theorem decompose_roundtrip (phone pais e164 : Str)
    (h : validatePhoneForCountry phone pais = .valid e164) :
    (normalizePhone e164 pais).country_code ++ ((normalizePhone e164 pais).area_code ++
      (normalizePhone e164 pais).local_number) = toE164Digits e164
    ∨ toE164Digits e164 = (normalizePhone e164 pais).country_code ++
        '9' :: ((normalizePhone e164 pais).area_code ++
          (normalizePhone e164 pais).local_number) := by
  obtain ⟨he, d, n, hsp⟩ := validate_valid_shape phone pais e164 h
  have hconcat : d ++ n = toE164Digits e164 := splitE164_concat e164 d n hsp
  have hplus : (['+'] : Str).isPrefixOf e164 = true := by
    rw [he]
    simp [List.isPrefixOf]
  simp only [normalizePhone, hplus, if_true, hsp]
  rcases hrule : (getCountryRule pais).orElse (fun _ => getCountryRule (aliasLookup pais))
      with _ | rule
  · simp only [hrule]
    exact Or.inl (by simpa using hconcat)
  · simp only [hrule]
    split_ifs with hc54 hc52 hc34 hc57 hc56 hc51 hc1
    · obtain ⟨hd, hsplit⟩ := normalizeArgentina_concat d n e164
      rcases hsplit with hl | hr
      · exact Or.inl (by rw [hd, hl]; exact hconcat)
      · refine Or.inr ?_
        rw [hd, ← hr]
        exact hconcat.symm
    · obtain ⟨hd, hl⟩ := normalizeMexico_concat d n e164 rule
      exact Or.inl (by rw [hd, hl]; exact hconcat)
    · exact Or.inl (by simpa [normalizeSpain] using hconcat)
    · obtain ⟨hd, hl⟩ := normalizeColombia_concat d n e164
      exact Or.inl (by rw [hd, hl]; exact hconcat)
    · obtain ⟨hd, hl⟩ := normalizeChile_concat d n e164
      exact Or.inl (by rw [hd, hl]; exact hconcat)
    · obtain ⟨hd, hl⟩ := normalizePeru_concat d n e164
      exact Or.inl (by rw [hd, hl]; exact hconcat)
    · obtain ⟨hd, hl⟩ := normalizeNANP_concat d n e164
      exact Or.inl (by rw [hd, hl]; exact hconcat)
    · exact Or.inl (by simpa using hconcat)

set_option maxRecDepth 100000 in
/-- Witness for the C2 theorem at a valid Colombian number. -/
theorem decompose_roundtrip_witness :
    validatePhoneForCountry (str r"+573001234567") (str r"Colombia") =
        .valid (str r"+573001234567")
    ∧ ((normalizePhone (str r"+573001234567") (str r"Colombia")).country_code ++
        ((normalizePhone (str r"+573001234567") (str r"Colombia")).area_code ++
          (normalizePhone (str r"+573001234567") (str r"Colombia")).local_number) =
        toE164Digits (str r"+573001234567")
      ∨ toE164Digits (str r"+573001234567") =
          (normalizePhone (str r"+573001234567") (str r"Colombia")).country_code ++
            '9' :: ((normalizePhone (str r"+573001234567") (str r"Colombia")).area_code ++
              (normalizePhone (str r"+573001234567") (str r"Colombia")).local_number)) :=
  ⟨by decide, decompose_roundtrip (str r"+573001234567") (str r"Colombia")
    (str r"+573001234567") (by decide)⟩

set_option maxRecDepth 100000 in
/-- C2 counterexample: the validator accepts the Argentine mobile number, yet
concatenating country code, area code and local number of its decomposition
loses the mobile 9 and does not reconstruct the digit string. -/
theorem decompose_roundtrip_cex :
    validatePhoneForCountry (str r"+5491122334455") (str r"Argentina") =
        .valid (str r"+5491122334455")
    ∧ normalizePhone (str r"+5491122334455") (str r"Argentina") =
        ⟨str r"54", str r"11", str r"22334455", str r"+5491122334455"⟩
    ∧ ¬ ((normalizePhone (str r"+5491122334455") (str r"Argentina")).country_code ++
        ((normalizePhone (str r"+5491122334455") (str r"Argentina")).area_code ++
          (normalizePhone (str r"+5491122334455") (str r"Argentina")).local_number) =
        toE164Digits (str r"+5491122334455")) := by
  exact ⟨by decide, by decide, by decide⟩

/-! Helper lemmas about random digit synthesis. -/

lemma digitToChar_isDigit (d : Nat) : (digitToChar d).isDigit = true := by
  have h : d % 10 < 10 := Nat.mod_lt d (by decide)
  unfold digitToChar
  generalize hm : d % 10 = m
  rw [hm] at h
  interval_cases m <;> decide

lemma randomDigitsTail_spec (n : Nat) :
    ∀ g : RStream, ((randomDigitsTail n g).1).length = n
      ∧ ((randomDigitsTail n g).1).all Char.isDigit = true := by
  induction n with
  | zero => intro g; exact ⟨rfl, rfl⟩
  | succ m ih =>
    intro g
    rcases hri : randomInt 0 9 g with ⟨dd, g1⟩
    have hm := ih g1
    rcases hrt : randomDigitsTail m g1 with ⟨rest, g2⟩
    rw [hrt] at hm
    simp only [randomDigitsTail, hri, hrt]
    simp only [List.length_cons, List.all_cons, hm.1, hm.2, digitToChar_isDigit]
    constructor <;> trivial

lemma randomDigits_spec (n : Nat) (b : Bool) (g : RStream) :
    ((randomDigits n b g).1).length = n
    ∧ ((randomDigits n b g).1).all Char.isDigit = true := by
  cases n with
  | zero => exact ⟨rfl, rfl⟩
  | succ m =>
    simp only [randomDigits]
    rcases hri : randomInt 0 9 g with ⟨dd, g1⟩
    split
    · rcases hr2 : randomInt 1 9 g1 with ⟨d2, g2⟩
      have hts := randomDigitsTail_spec m g2
      rcases hrt : randomDigitsTail m g2 with ⟨rest, g3⟩
      rw [hrt] at hts
      simp only [List.length_cons, List.all_cons, hts.1, hts.2, digitToChar_isDigit]
      constructor <;> trivial
    · have hts := randomDigitsTail_spec m g1
      rcases hrt : randomDigitsTail m g1 with ⟨rest, g2⟩
      rw [hrt] at hts
      simp only [List.length_cons, List.all_cons, hts.1, hts.2, digitToChar_isDigit]
      constructor <;> trivial

lemma randomInt_bounds (lo hi : Nat) (g : RStream) (h : lo ≤ hi) :
    lo ≤ (randomInt lo hi g).1 ∧ (randomInt lo hi g).1 ≤ hi := by
  unfold randomInt nextNat
  cases g with
  | nil =>
    simp only [Nat.zero_mod]
    omega
  | cons a t =>
    simp only
    have hm := Nat.mod_lt a (show 0 < hi - lo + 1 by omega)
    omega

lemma getD_mem (l : List Str) (i : Nat) (h : i < l.length) : l.getD i [] ∈ l := by
  rw [List.getD_eq_getElem l [] h]
  exact List.getElem_mem h

/-! Helper lemmas computing the validator on synthesized shapes. -/

lemma prefix_one_head (c1 : Char) (rest : Str)
    (h : (['1'] : Str).isPrefixOf (c1 :: rest) = true) : c1 = '1' := by
  obtain ⟨t, ht⟩ := List.isPrefixOf_iff_prefix.mp h
  injection ht with h1 h2
  exact h1.symm

lemma splitE164_two_shape (c1 c2 : Char) (rest : Str)
    (hall : (c1 :: c2 :: rest).all Char.isDigit = true)
    (hc1 : c1 ≠ '1')
    (h10 : 10 ≤ (c1 :: c2 :: rest).length)
    (hmem : [c1, c2] ∈ twoCodes) :
    splitE164 ('+' :: c1 :: c2 :: rest) = some ([c1, c2], rest) := by
  have h1 : ¬ ((['1'] : Str).isPrefixOf (c1 :: c2 :: rest) = true
      ∧ 11 ≤ (c1 :: c2 :: rest).length) := by
    rintro ⟨hp, -⟩
    exact hc1 (prefix_one_head _ _ hp)
  have h2 : (c1 :: c2 :: rest).take 2 ∈ twoCodes := hmem
  simp only [splitE164, toE164Digits_plus, toE164Digits_of_digits _ hall]
  rw [if_neg (by simp), if_neg h1, if_pos h10, if_pos h2]
  rfl

lemma splitE164_one_shape (rest : Str)
    (hall : ('1' :: rest).all Char.isDigit = true)
    (h11 : 11 ≤ ('1' :: rest).length) :
    splitE164 ('+' :: '1' :: rest) = some (['1'], rest) := by
  have hp : (['1'] : Str).isPrefixOf ('1' :: rest) = true := by
    simp [List.isPrefixOf]
  simp only [splitE164, toE164Digits_plus, toE164Digits_of_digits _ hall]
  rw [if_neg (by simp), if_pos ⟨hp, h11⟩]
  rfl

lemma validate_two_shape (pais : Str) (r : CountryRule) (c1 c2 : Char) (rest : Str)
    (allowed : List Str)
    (hall : (c1 :: c2 :: rest).all Char.isDigit = true)
    (hc1 : c1 ≠ '1')
    (hmem : [c1, c2] ∈ twoCodes)
    (hcc : getCountryByCode [c1, c2] = some allowed)
    (hany : (allowed.any fun c =>
      decide (aliasLookup c = aliasLookup pais ∨ c = aliasLookup pais)) = true)
    (hrule : (getCountryRule pais).orElse (fun _ => getCountryRule (aliasLookup pais)) =
      some r)
    (hminmax : ¬ ((c1 :: c2 :: rest).length < r.minE164Length.getD 8
      ∨ r.maxE164Length.getD 15 < (c1 :: c2 :: rest).length))
    (h10 : 10 ≤ (c1 :: c2 :: rest).length)
    (h8 : ¬ (c1 :: c2 :: rest).length < 8) :
    validatePhoneForCountry ('+' :: c1 :: c2 :: rest) pais =
      .valid ('+' :: c1 :: c2 :: rest) := by
  rw [validate_plus_digits _ _ hall]
  simp only [if_neg h8, splitE164_two_shape c1 c2 rest hall hc1 h10 hmem, hcc,
    if_neg (not_not_intro hany), hrule, if_neg hminmax]

lemma validate_one_shape (pais : Str) (r : CountryRule) (rest : Str)
    (hall : ('1' :: rest).all Char.isDigit = true)
    (h11 : 11 ≤ ('1' :: rest).length)
    (hany : (([str r"USA", str r"Canada", str r"República Dominicana"]).any fun c =>
      decide (aliasLookup c = aliasLookup pais ∨ c = aliasLookup pais)) = true)
    (hrule : (getCountryRule pais).orElse (fun _ => getCountryRule (aliasLookup pais)) =
      some r)
    (hminmax : ¬ (('1' :: rest).length < r.minE164Length.getD 8
      ∨ r.maxE164Length.getD 15 < ('1' :: rest).length)) :
    validatePhoneForCountry ('+' :: '1' :: rest) pais =
      .valid ('+' :: '1' :: rest) := by
  rw [validate_plus_digits _ _ hall]
  have h8 : ¬ ('1' :: rest).length < 8 := by
    simp only [List.length_cons] at h11 ⊢
    omega
  have hcc : getCountryByCode ['1'] =
      some [str r"USA", str r"Canada", str r"República Dominicana"] := by decide
  simp only [if_neg h8, splitE164_one_shape rest hall h11, hcc,
    if_neg (not_not_intro hany), hrule, if_neg hminmax]

lemma valid_gen_argentina (pais m : Str) (g g1 : RStream)
    (hk : aliasLookup pais = str r"Argentina")
    (hgen : generateOne (some argentinaRule) g = (some m, g1)) :
    validatePhoneForCountry m pais = .valid m := by
  have hred : generateOne (some argentinaRule) g =
      (some (generateArgentina argentinaRule g).1,
        (generateArgentina argentinaRule g).2) := rfl
  rw [hred] at hgen
  have hm : (generateArgentina argentinaRule g).1 = m := by
    have hfst := congrArg Prod.fst hgen
    simpa using hfst
  have hbound := randomInt_bounds 0
    ((argentinaRule.areaCodes.getD argentinaDefaultAreas).length - 1) g (by decide)
  rcases hri : randomInt 0
      ((argentinaRule.areaCodes.getD argentinaDefaultAreas).length - 1) g with ⟨i, gi⟩
  rw [hri] at hbound
  have hLlen : (argentinaRule.areaCodes.getD argentinaDefaultAreas).length = 11 := rfl
  have hiA : i < (argentinaRule.areaCodes.getD argentinaDefaultAreas).length := by
    rw [hLlen] at hbound ⊢
    omega
  have hmemA := getD_mem _ i hiA
  have hfacts : ∀ a ∈ argentinaRule.areaCodes.getD argentinaDefaultAreas,
      a.all Char.isDigit = true ∧ (a.length = 2 ∨ a.length = 3) := by decide
  obtain ⟨had, hal⟩ := hfacts _ hmemA
  have hls := randomDigits_spec
    (10 - ((argentinaRule.areaCodes.getD argentinaDefaultAreas).getD i []).length) true gi
  rcases hrd : randomDigits
      (10 - ((argentinaRule.areaCodes.getD argentinaDefaultAreas).getD i []).length)
      true gi with ⟨loc, g2⟩
  rw [hrd] at hls
  have hshape : m = str r"+549" ++
      ((argentinaRule.areaCodes.getD argentinaDefaultAreas).getD i []) ++ loc := by
    rw [← hm]
    simp only [generateArgentina, hri, hrd]
  subst hshape
  refine validate_two_shape pais argentinaRule '5' '4'
    ('9' :: (((argentinaRule.areaCodes.getD argentinaDefaultAreas).getD i []) ++ loc))
    [str r"Argentina"] ?_ (by decide) (by decide) (by decide) ?_ ?_ ?_ ?_ ?_
  · simp only [List.all_cons, List.all_append, had, hls.2]
    decide
  · rw [hk]
    decide
  · simp only [getCountryRule, hk]
    decide
  · simp only [List.length_cons, List.length_append, hls.1,
      show argentinaRule.minE164Length.getD 8 = 13 from rfl,
      show argentinaRule.maxE164Length.getD 15 = 15 from rfl]
    omega
  · simp only [List.length_cons, List.length_append, hls.1]
    omega
  · simp only [List.length_cons, List.length_append, hls.1]
    omega

set_option maxRecDepth 1000000 in
lemma mexicoAreaFacts : ∀ a ∈ mexicoRule.areaCodes.getD mexicoDefaultAreas,
    a.all Char.isDigit = true ∧ (a.length = 2 ∨ a.length = 3) := by decide

set_option maxRecDepth 1000000 in
lemma valid_gen_mexico (pais m : Str) (g g1 : RStream)
    (hk : aliasLookup pais = str r"Mexico")
    (hgen : generateOne (some mexicoRule) g = (some m, g1)) :
    validatePhoneForCountry m pais = .valid m := by
  have hred : generateOne (some mexicoRule) g =
      (some (generateMexico mexicoRule g).1, (generateMexico mexicoRule g).2) := rfl
  rw [hred] at hgen
  have hm : (generateMexico mexicoRule g).1 = m := by
    have hfst := congrArg Prod.fst hgen
    simpa using hfst
  have hbound := randomInt_bounds 0
    ((mexicoRule.areaCodes.getD mexicoDefaultAreas).length - 1) g (by decide)
  rcases hri : randomInt 0
      ((mexicoRule.areaCodes.getD mexicoDefaultAreas).length - 1) g with ⟨i, gi⟩
  rw [hri] at hbound
  have hLlen : (mexicoRule.areaCodes.getD mexicoDefaultAreas).length = 461 := rfl
  have hiA : i < (mexicoRule.areaCodes.getD mexicoDefaultAreas).length := by
    rw [hLlen] at hbound ⊢
    omega
  have hmemA := getD_mem _ i hiA
  obtain ⟨had, hal⟩ := mexicoAreaFacts _ hmemA
  have hls := randomDigits_spec
    (10 - ((mexicoRule.areaCodes.getD mexicoDefaultAreas).getD i []).length) true gi
  rcases hrd : randomDigits
      (10 - ((mexicoRule.areaCodes.getD mexicoDefaultAreas).getD i []).length)
      true gi with ⟨loc, g2⟩
  rw [hrd] at hls
  have hshape : m = str r"+52" ++
      ((mexicoRule.areaCodes.getD mexicoDefaultAreas).getD i []) ++ loc := by
    rw [← hm]
    simp only [generateMexico, hri, hrd]
  subst hshape
  refine validate_two_shape pais mexicoRule '5' '2'
    (((mexicoRule.areaCodes.getD mexicoDefaultAreas).getD i []) ++ loc)
    [str r"Mexico"] ?_ (by decide) (by decide) (by decide) ?_ ?_ ?_ ?_ ?_
  · simp only [List.all_cons, List.all_append, had, hls.2]
    decide
  · rw [hk]
    decide
  · simp only [getCountryRule, hk]
    decide
  · simp only [List.length_cons, List.length_append, hls.1,
      show mexicoRule.minE164Length.getD 8 = 12 from rfl,
      show mexicoRule.maxE164Length.getD 15 = 13 from rfl]
    omega
  · simp only [List.length_cons, List.length_append, hls.1]
    omega
  · simp only [List.length_cons, List.length_append, hls.1]
    omega

lemma valid_gen_colombia (pais m : Str) (g g1 : RStream)
    (hk : aliasLookup pais = str r"Colombia")
    (hgen : generateOne (some colombiaRule) g = (some m, g1)) :
    validatePhoneForCountry m pais = .valid m := by
  have hred : generateOne (some colombiaRule) g =
      (some (generateColombia g).1, (generateColombia g).2) := rfl
  rw [hred] at hgen
  have hm : (generateColombia g).1 = m := by
    have hfst := congrArg Prod.fst hgen
    simpa using hfst
  have hbound := randomInt_bounds 0 (colombiaMobileBlocks.length - 1) g (by decide)
  rcases hri : randomInt 0 (colombiaMobileBlocks.length - 1) g with ⟨i, gi⟩
  rw [hri] at hbound
  have hLlen : colombiaMobileBlocks.length = 18 := rfl
  have hiA : i < colombiaMobileBlocks.length := by
    rw [hLlen] at hbound ⊢
    omega
  have hmemA := getD_mem _ i hiA
  have hfacts : ∀ a ∈ colombiaMobileBlocks,
      a.all Char.isDigit = true ∧ a.length = 3 := by decide
  obtain ⟨had, hal⟩ := hfacts _ hmemA
  have hls := randomDigits_spec 7 true gi
  rcases hrd : randomDigits 7 true gi with ⟨loc, g2⟩
  rw [hrd] at hls
  have hshape : m = str r"+57" ++ (colombiaMobileBlocks.getD i []) ++ loc := by
    rw [← hm]
    simp only [generateColombia, hri, hrd]
  subst hshape
  refine validate_two_shape pais colombiaRule '5' '7'
    ((colombiaMobileBlocks.getD i []) ++ loc)
    [str r"Colombia"] ?_ (by decide) (by decide) (by decide) ?_ ?_ ?_ ?_ ?_
  · simp only [List.all_cons, List.all_append, had, hls.2]
    decide
  · rw [hk]
    decide
  · simp only [getCountryRule, hk]
    decide
  · simp only [List.length_cons, List.length_append, hls.1, hal,
      show colombiaRule.minE164Length.getD 8 = 12 from rfl,
      show colombiaRule.maxE164Length.getD 15 = 12 from rfl]
    omega
  · simp only [List.length_cons, List.length_append, hls.1, hal]
    omega
  · simp only [List.length_cons, List.length_append, hls.1, hal]
    omega

lemma valid_gen_chile (pais m : Str) (g g1 : RStream)
    (hk : aliasLookup pais = str r"Chile")
    (hgen : generateOne (some chileRule) g = (some m, g1)) :
    validatePhoneForCountry m pais = .valid m := by
  have hred : generateOne (some chileRule) g =
      (some (generateChile g).1, (generateChile g).2) := rfl
  rw [hred] at hgen
  have hm : (generateChile g).1 = m := by
    have hfst := congrArg Prod.fst hgen
    simpa using hfst
  have hls := randomDigits_spec 8 true g
  rcases hrd : randomDigits 8 true g with ⟨loc, g2⟩
  rw [hrd] at hls
  have hshape : m = str r"+569" ++ loc := by
    rw [← hm]
    simp only [generateChile, hrd]
  subst hshape
  refine validate_two_shape pais chileRule '5' '6' ('9' :: loc) [str r"Chile"]
    ?_ (by decide) (by decide) (by decide) ?_ ?_ ?_ ?_ ?_
  · simp only [List.all_cons, hls.2]
    decide
  · rw [hk]
    decide
  · simp only [getCountryRule, hk]
    decide
  · simp only [List.length_cons, hls.1,
      show chileRule.minE164Length.getD 8 = 11 from rfl,
      show chileRule.maxE164Length.getD 15 = 11 from rfl]
    omega
  · simp only [List.length_cons, hls.1]
    omega
  · simp only [List.length_cons, hls.1]
    omega

lemma valid_gen_peru (pais m : Str) (g g1 : RStream)
    (hk : aliasLookup pais = str r"Peru")
    (hgen : generateOne (some peruRule) g = (some m, g1)) :
    validatePhoneForCountry m pais = .valid m := by
  have hred : generateOne (some peruRule) g =
      (some (generatePeru g).1, (generatePeru g).2) := rfl
  rw [hred] at hgen
  have hm : (generatePeru g).1 = m := by
    have hfst := congrArg Prod.fst hgen
    simpa using hfst
  have hls := randomDigits_spec 8 true g
  rcases hrd : randomDigits 8 true g with ⟨loc, g2⟩
  rw [hrd] at hls
  have hshape : m = str r"+519" ++ loc := by
    rw [← hm]
    simp only [generatePeru, hrd]
  subst hshape
  refine validate_two_shape pais peruRule '5' '1' ('9' :: loc) [str r"Peru"]
    ?_ (by decide) (by decide) (by decide) ?_ ?_ ?_ ?_ ?_
  · simp only [List.all_cons, hls.2]
    decide
  · rw [hk]
    decide
  · simp only [getCountryRule, hk]
    decide
  · simp only [List.length_cons, hls.1,
      show peruRule.minE164Length.getD 8 = 11 from rfl,
      show peruRule.maxE164Length.getD 15 = 11 from rfl]
    omega
  · simp only [List.length_cons, hls.1]
    omega
  · simp only [List.length_cons, hls.1]
    omega

lemma valid_gen_nanp_core (pais m : Str) (g : RStream) (r : CountryRule)
    (hany : (([str r"USA", str r"Canada", str r"República Dominicana"]).any fun c =>
      decide (aliasLookup c = aliasLookup pais ∨ c = aliasLookup pais)) = true)
    (hrule : (getCountryRule pais).orElse (fun _ => getCountryRule (aliasLookup pais)) =
      some r)
    (hmm : r.minE164Length.getD 8 = 11 ∧ r.maxE164Length.getD 15 = 11)
    (hm : (generateNANP g).1 = m) :
    validatePhoneForCountry m pais = .valid m := by
  rcases h1 : randomInt 2 9 g with ⟨npa1, ga⟩
  rcases h2 : randomInt 0 9 ga with ⟨npa2a, gb⟩
  rcases h3 : (if npa1 = 1 ∧ npa2a = 1 then randomInt 0 8 gb else (npa2a, gb))
    with ⟨npa2, gc⟩
  rcases h4 : randomInt 0 9 gc with ⟨npa3, gd⟩
  have hls := randomDigits_spec 7 true gd
  rcases h5 : randomDigits 7 true gd with ⟨loc, ge⟩
  rw [h5] at hls
  have hshape : m = '+' :: '1' :: digitToChar npa1 :: digitToChar npa2 ::
      digitToChar npa3 :: loc := by
    rw [← hm]
    simp only [generateNANP, h1, h2, h3, h4, h5]
  subst hshape
  refine validate_one_shape pais r _ ?_ ?_ hany hrule ?_
  · simp only [List.all_cons, digitToChar_isDigit, hls.2]
    decide
  · simp only [List.length_cons, hls.1]
    omega
  · simp only [List.length_cons, hls.1, hmm.1, hmm.2]
    omega

lemma rulesLookup_mem (k : Str) (r : CountryRule) (h : rulesLookup k = some r) :
    (k, r) ∈ COUNTRY_RULES := by
  unfold rulesLookup at h
  rcases hf : COUNTRY_RULES.find? (fun q => q.1 == k) with _ | q
  · rw [hf] at h
    exact absurd h (by simp)
  · rw [hf] at h
    rcases q with ⟨a, b⟩
    have hmem := List.mem_of_find?_eq_some hf
    have hpred := List.find?_some hf
    have hk : a = k := by simpa using hpred
    have hb : b = r := by simpa using h
    subst hk hb
    exact hmem

/-- C8 (amended): every number generateForCountry returns for a country whose
rule is handled by a dedicated structural branch (codes 54, 52, 57, 56, 51
and 1; code 34 has no rule) is accepted by the validator for that same
country label. Countries served by the generic fallback can generate numbers
the validator rejects, as the counterexample shows. -/
theorem generated_numbers_validate (pais : Str) (r : CountryRule) (count : Nat)
    (ex ep : List Str) (g : RStream) (n : Str)
    (hr : rulesLookup (aliasLookup pais) = some r)
    (hcode : r.code ∈ [str r"54", str r"52", str r"57", str r"56", str r"51", str r"1"])
    (hn : n ∈ (generateForCountry pais count ex ep g).1) :
    validatePhoneForCountry n pais = .valid n := by
  refine genLoop_sound (rulesLookup (aliasLookup pais)) count
    (fun m => validatePhoneForCountry m pais = .valid m) ?_ (count * 100)
    ⟨[], ex, ep, g, 0⟩ (by simp) n hn
  intro g0 mm g1 hgen
  rw [hr] at hgen
  have hmem := rulesLookup_mem _ _ hr
  simp only [COUNTRY_RULES, List.mem_cons, List.not_mem_nil, or_false] at hmem
  rcases hmem with h|h|h|h|h|h|h|h|h|h|h|h|h|h|h|h|h <;>
    obtain ⟨hk, hrr⟩ := Prod.mk.injEq .. ▸ h <;> subst hrr
  · exact valid_gen_argentina pais mm g0 g1 hk hgen
  · exact absurd hcode (by decide)
  · exact absurd hcode (by decide)
  · exact valid_gen_chile pais mm g0 g1 hk hgen
  · exact valid_gen_colombia pais mm g0 g1 hk hgen
  · exact absurd hcode (by decide)
  · exact absurd hcode (by decide)
  · exact absurd hcode (by decide)
  · exact absurd hcode (by decide)
  · exact valid_gen_mexico pais mm g0 g1 hk hgen
  · exact absurd hcode (by decide)
  · exact absurd hcode (by decide)
  · exact valid_gen_peru pais mm g0 g1 hk hgen
  · exact valid_gen_nanp_core pais mm g0 dominicanaRule (by rw [hk]; decide)
      (by simp only [getCountryRule, hk]; decide) ⟨rfl, rfl⟩
      (by
        have hred : generateOne (some dominicanaRule) g0 =
          (some (generateNANP g0).1, (generateNANP g0).2) := rfl
        rw [hred] at hgen
        have hfst := congrArg Prod.fst hgen
        simpa using hfst)
  · exact absurd hcode (by decide)
  · exact valid_gen_nanp_core pais mm g0 usaRule (by rw [hk]; decide)
      (by simp only [getCountryRule, hk]; decide) ⟨rfl, rfl⟩
      (by
        have hred : generateOne (some usaRule) g0 =
          (some (generateNANP g0).1, (generateNANP g0).2) := rfl
        rw [hred] at hgen
        have hfst := congrArg Prod.fst hgen
        simpa using hfst)
  · exact valid_gen_nanp_core pais mm g0 canadaRule (by rw [hk]; decide)
      (by simp only [getCountryRule, hk]; decide) ⟨rfl, rfl⟩
      (by
        have hred : generateOne (some canadaRule) g0 =
          (some (generateNANP g0).1, (generateNANP g0).2) := rfl
        rw [hred] at hgen
        have hfst := congrArg Prod.fst hgen
        simpa using hfst)

set_option maxRecDepth 200000 in
/-- Witness for the C8 theorem at a concrete Chile run. -/
theorem generated_numbers_validate_witness :
    (rulesLookup (aliasLookup (str r"Chile")) = some chileRule
      ∧ chileRule.code ∈
          [str r"54", str r"52", str r"57", str r"56", str r"51", str r"1"]
      ∧ (str r"+56910000000") ∈ (generateForCountry (str r"Chile") 1 [] [] []).1)
    ∧ validatePhoneForCountry (str r"+56910000000") (str r"Chile") =
        .valid (str r"+56910000000") :=
  ⟨⟨by decide, by decide, by decide⟩,
    generated_numbers_validate (str r"Chile") chileRule 1 [] [] [] _
      (by decide) (by decide) (by decide)⟩

set_option maxRecDepth 200000 in
/-- C8 counterexample: Bolivia has a CountryRule, yet the generic fallback
can synthesize a twelve-digit number the validator rejects for its length. -/
theorem generated_numbers_validate_cex :
    rulesLookup (aliasLookup (str r"Bolivia")) = some boliviaRule
    ∧ (generateForCountry (str r"Bolivia") 1 [] [] [1]).1 = [str r"+591100000000"]
    ∧ validatePhoneForCountry (str r"+591100000000") (str r"Bolivia") =
        .invalid .badLength := by
  exact ⟨by decide, by decide, by decide⟩

/-! Helper lemmas about the batch grouping component. -/

lemma find?_some_of_ex {α : Type} (p : α → Bool) :
    ∀ l : List α, (∃ x ∈ l, p x = true) →
      ∃ y, l.find? p = some y ∧ p y = true := by
  intro l
  induction l with
  | nil =>
    rintro ⟨x, hx, -⟩
    exact absurd hx (by simp)
  | cons a t ih =>
    rintro ⟨x, hx, hpx⟩
    by_cases hpa : p a = true
    · exact ⟨a, by rw [List.find?_cons_of_pos _ hpa], hpa⟩
    · rcases List.mem_cons.mp hx with rfl | hxt
      · exact absurd hpx hpa
      · obtain ⟨y, hy, hpy⟩ := ih ⟨x, hxt, hpx⟩
        refine ⟨y, ?_, hpy⟩
        rw [List.find?_cons_of_neg _ (by simpa using hpa), hy]

lemma ePFG_ne_nil (cp p : Str) (hp : extractPrefixForGrouping cp = some p) :
    ¬ cp = [] := by
  intro hc
  subst hc
  simp [extractPrefixForGrouping] at hp

lemma addToGroups_mem (groups : List BatchGroup) (fn : Str) (nick : Option Str)
    (c : Contact) (g1 : BatchGroup) (x : Contact)
    (hg1 : g1 ∈ addToGroups groups fn nick c) (hx : x ∈ g1.contacts) :
    (∃ g0 ∈ groups, x ∈ g0.contacts) ∨ x = c := by
  unfold addToGroups at hg1
  split_ifs at hg1 with hany
  · obtain ⟨g0, hg0, hmap⟩ := List.mem_map.mp hg1
    by_cases hfn : (g0.from_number == fn) = true
    · rw [if_pos hfn] at hmap
      subst hmap
      rcases List.mem_append.mp hx with h | h
      · exact Or.inl ⟨g0, hg0, h⟩
      · exact Or.inr (List.mem_singleton.mp h)
    · rw [if_neg hfn] at hmap
      subst hmap
      exact Or.inl ⟨g0, hg0, hx⟩
  · rcases List.mem_append.mp hg1 with hold | hnew
    · exact Or.inl ⟨g1, hold, hx⟩
    · rcases List.mem_singleton.mp hnew with rfl
      exact Or.inr (List.mem_singleton.mp hx)

lemma groupStep_sound (gens : List GenNumber) (groups : List BatchGroup)
    (c : Contact)
    (hacc : ∀ g0 ∈ groups, ∀ ct ∈ g0.contacts, ∃ ph, ct.phone = some ph ∧
      findMatchingGeneratedNumber ph gens ≠ none) :
    ∀ g0 ∈ groupStep gens groups c, ∀ ct ∈ g0.contacts, ∃ ph, ct.phone = some ph ∧
      findMatchingGeneratedNumber ph gens ≠ none := by
  intro g0 hg0 ct hct
  unfold groupStep at hg0
  rcases hph : c.phone with _ | ph
  · simp only [hph] at hg0
    exact hacc g0 hg0 ct hct
  · simp only [hph] at hg0
    split_ifs at hg0 with hnil
    · exact hacc g0 hg0 ct hct
    · rcases hfm : findMatchingGeneratedNumber (plusNorm ph) gens with _ | mth
      · simp only [hfm] at hg0
        exact hacc g0 hg0 ct hct
      · simp only [hfm] at hg0
        rcases addToGroups_mem groups (plusNorm mth.phone)
            (mth.nickname.orElse (fun _ => mth.pais))
            { c with phone := some (plusNorm ph) } g0 ct hg0 hct with hold | rfl
        · obtain ⟨g2, hg2, hin⟩ := hold
          exact hacc g2 hg2 ct hin
        · refine ⟨plusNorm ph, rfl, ?_⟩
          rw [hfm]
          simp

lemma foldl_groupStep_sound (gens : List GenNumber) :
    ∀ (contacts : List Contact) (acc : List BatchGroup),
      (∀ g0 ∈ acc, ∀ ct ∈ g0.contacts, ∃ ph, ct.phone = some ph ∧
        findMatchingGeneratedNumber ph gens ≠ none) →
      ∀ g0 ∈ contacts.foldl (groupStep gens) acc, ∀ ct ∈ g0.contacts,
        ∃ ph, ct.phone = some ph ∧ findMatchingGeneratedNumber ph gens ≠ none := by
  intro contacts
  induction contacts with
  | nil => intro acc hacc; exact hacc
  | cons c rest ih =>
    intro acc hacc
    exact ih (groupStep gens acc c) (groupStep_sound gens acc c hacc)

/-- C9: the matcher assigns a contact to a generated number of identical
grouping prefix whenever the pool holds one; with no prefix match it assigns
the first pool number sharing the contact country code; and every contact
stored in any group produced by groupContactsByPrefix carries a phone that
found a match, so an unmatched contact appears in no group and raises no
error. -/
theorem grouping_assignment (contacts : List Contact) (gens : List GenNumber)
    (cp p cc : Str) (gn0 : GenNumber)
    (hp : extractPrefixForGrouping cp = some p) :
    ((∃ gn ∈ gens, extractPrefixForGrouping (plusNorm gn.phone) = some p) →
      ∃ mth, findMatchingGeneratedNumber cp gens = some mth
        ∧ extractPrefixForGrouping mth.phone = some p)
    ∧ ((∀ gn ∈ gens, ¬ extractPrefixForGrouping (plusNorm gn.phone) = some p) →
      extractCountryCode (plusNorm cp) = some cc →
      gens.find? (fun gn => extractCountryCode (plusNorm gn.phone) == some cc) =
        some gn0 →
      findMatchingGeneratedNumber cp gens =
        some { gn0 with phone := plusNorm gn0.phone })
    ∧ (∀ g0 ∈ groupContactsByPrefix contacts gens, ∀ ct ∈ g0.contacts,
      ∃ ph, ct.phone = some ph ∧ findMatchingGeneratedNumber ph gens ≠ none) := by
  refine ⟨?_, ?_, ?_⟩
  · rintro ⟨gn, hgn, hgnp⟩
    have hcp := ePFG_ne_nil cp p hp
    have hgens : ¬ gens = [] := by
      rintro rfl
      exact absurd hgn (by simp)
    have hex : ∃ x ∈ gens,
        (fun gn => extractPrefixForGrouping (plusNorm gn.phone) == some p) x = true :=
      ⟨gn, hgn, by simpa using hgnp⟩
    obtain ⟨y, hfind, hqy⟩ := find?_some_of_ex _ gens hex
    refine ⟨{ y with phone := plusNorm y.phone }, ?_, ?_⟩
    · unfold findMatchingGeneratedNumber
      rw [if_neg (not_or.mpr ⟨hcp, hgens⟩)]
      simp only [hp, hfind]
    · simpa using hqy
  · intro hnone hccc hfind
    have hcp := ePFG_ne_nil cp p hp
    have hgens : ¬ gens = [] := by
      rintro rfl
      simp at hfind
    have hfd1 : gens.find?
        (fun gn => extractPrefixForGrouping (plusNorm gn.phone) == some p) = none := by
      rw [List.find?_eq_none]
      intro x hx
      simpa using hnone x hx
    unfold findMatchingGeneratedNumber
    rw [if_neg (not_or.mpr ⟨hcp, hgens⟩)]
    simp only [hp, hfd1, hccc, hfind]
  · exact foldl_groupStep_sound gens contacts [] (by simp)

/-- Witness for the C9 theorem on a one-contact, one-number pool. -/
theorem grouping_assignment_witness :
    extractPrefixForGrouping (str r"+573001234567") = some (str r"57300")
    ∧ (((∃ gn ∈ [GenNumber.mk (str r"+573009876543") none (some (str r"Colombia"))],
        extractPrefixForGrouping (plusNorm gn.phone) = some (str r"57300")) →
      ∃ mth, findMatchingGeneratedNumber (str r"+573001234567")
          [GenNumber.mk (str r"+573009876543") none (some (str r"Colombia"))] = some mth
        ∧ extractPrefixForGrouping mth.phone = some (str r"57300"))
    ∧ ((∀ gn ∈ [GenNumber.mk (str r"+573009876543") none (some (str r"Colombia"))],
        ¬ extractPrefixForGrouping (plusNorm gn.phone) = some (str r"57300")) →
      extractCountryCode (plusNorm (str r"+573001234567")) = some (str r"57") →
      ([GenNumber.mk (str r"+573009876543") none (some (str r"Colombia"))]).find?
          (fun gn => extractCountryCode (plusNorm gn.phone) == some (str r"57")) =
        some (GenNumber.mk (str r"+573009876543") none (some (str r"Colombia"))) →
      findMatchingGeneratedNumber (str r"+573001234567")
          [GenNumber.mk (str r"+573009876543") none (some (str r"Colombia"))] =
        some { GenNumber.mk (str r"+573009876543") none (some (str r"Colombia")) with
          phone := plusNorm (GenNumber.mk (str r"+573009876543") none
            (some (str r"Colombia"))).phone })
    ∧ (∀ g0 ∈ groupContactsByPrefix [Contact.mk (some (str r"+573001234567")) 0]
          [GenNumber.mk (str r"+573009876543") none (some (str r"Colombia"))],
        ∀ ct ∈ g0.contacts, ∃ ph, ct.phone = some ph ∧
          findMatchingGeneratedNumber ph
            [GenNumber.mk (str r"+573009876543") none (some (str r"Colombia"))] ≠
              none)) :=
  ⟨by decide,
    grouping_assignment [Contact.mk (some (str r"+573001234567")) 0]
      [GenNumber.mk (str r"+573009876543") none (some (str r"Colombia"))]
      (str r"+573001234567") (str r"57300") (str r"57")
      (GenNumber.mk (str r"+573009876543") none (some (str r"Colombia")))
      (by decide)⟩
